import Mathlib

/-!
# aptly: task output sink and repository API handlers

A shallow embedding of `queue/task.go` (the `State`, `Task` and `TaskOutput`
types with `String`, `Write`, `WriteString`) and of the repository handlers of
`api/repos.go`, followed by the properties established about them.

Go strings and byte slices are finite byte sequences; both are `List UInt8`.
Calls that leave the two source files (the collections, the package list, the
file system, the task runner) are arguments of the embedded functions.
-/

namespace Aptly

/-- A Go `string` or `[]byte`: a finite sequence of bytes. -/
abbrev GoString := List UInt8

/-- The bytes of an ASCII literal of the source text. -/
def ascii (s : String) : GoString := s.data.map (fun c => UInt8.ofNat c.toNat)

/-- A Go `error` value: the text of `Error()`, and whether the value is the
sentinel `database.ErrNotFound`, which the handlers test with `==`. -/
structure GoError where
  msg : GoString
  isErrNotFound : Bool
  deriving DecidableEq, Repr

/-- The error built by `fmt.Errorf`: a fresh value, never the sentinel. -/
def Errorf (msg : GoString) : GoError := ⟨msg, false⟩

/-! ## queue/task.go -/

namespace queue

/-- The `State` enumeration, `IDLE = iota`. -/
inductive State
  | IDLE
  | RUNNING
  | SUCCEEDED
  | FAILED
  deriving DecidableEq, Repr

/-- The integer value of a `State` constant. -/
def State.toInt : State → Int
  | .IDLE => 0
  | .RUNNING => 1
  | .SUCCEEDED => 2
  | .FAILED => 3

/-- The `TaskOutput` struct. `output` is the content of the `bytes.Buffer`; the
mutex `mu` is taken and released inside every method and holds no data. -/
structure TaskOutput where
  output : List UInt8
  deriving DecidableEq, Repr

/-- A `TaskOutput` whose buffer holds nothing yet. -/
def TaskOutput.empty : TaskOutput := ⟨[]⟩

/-- `bytes.Buffer.Write` of the Go library: appends `p`, returns `len(p)` and a
nil error. -/
def bufferWrite (buf : List UInt8) (p : List UInt8) : (Nat × Option GoError) × List UInt8 :=
  ((p.length, none), buf ++ p)

/-- `bytes.Buffer.String` of the Go library: the content, nothing is consumed. -/
def bufferString (buf : List UInt8) : GoString := buf

/-- `func (t *TaskOutput) String() string`: the returned text and the state
the call leaves behind. -/
def TaskOutput.String (t : TaskOutput) : GoString × TaskOutput :=
  (bufferString t.output, t)

/-- `func (t *TaskOutput) Write(p []byte) (n int, err error)`. -/
def TaskOutput.Write (t : TaskOutput) (p : List UInt8) : (Nat × Option GoError) × TaskOutput :=
  let r := bufferWrite t.output p
  (r.1, { output := r.2 })

/-- `func (t *TaskOutput) WriteString(s string) (n int, err error)`;
`bytes.Buffer.WriteString` appends the bytes of `s` like `Write`. -/
def TaskOutput.WriteString (t : TaskOutput) (s : GoString) : (Nat × Option GoError) × TaskOutput :=
  let r := bufferWrite t.output s
  (r.1, { output := r.2 })

/-- The `Task` struct. `process` receives the output sink, may write to it, and
returns its error. -/
structure Task where
  output : TaskOutput
  process : TaskOutput → Option GoError × TaskOutput
  Name : GoString
  ID : Int
  State : State

/-- One call made on a `TaskOutput`. -/
inductive Call
  | String
  | Write (p : List UInt8)
  | WriteString (s : GoString)
  deriving DecidableEq, Repr

/-- The bytes a call hands to the sink (`String` hands none). -/
def Call.payload : Call → List UInt8
  | .String => []
  | .Write p => p
  | .WriteString s => s

/-- Whether the call is a `String()` read. -/
def Call.isRead : Call → Bool
  | .String => true
  | _ => false

/-- Performs one call: the new state and, for `String()`, the text returned. -/
def perform (t : TaskOutput) : Call → TaskOutput × Option GoString
  | .String => ((t.String).2, some (t.String).1)
  | .Write p => ((t.Write p).2, none)
  | .WriteString s => ((t.WriteString s).2, none)

/-- Performs the calls in order: the final state and the texts returned by the
`String()` calls, in call order. -/
def performAll : TaskOutput → List Call → TaskOutput × List GoString
  | t, [] => (t, [])
  | t, c :: cs =>
    let r := perform t c
    let rest := performAll r.1 cs
    (rest.1, (r.2.toList) ++ rest.2)

/-- Writes the byte strings in order; the flag of each entry selects
`WriteString` (true) or `Write` (false). -/
def writeSeq (t : TaskOutput) (ws : List (Bool × List UInt8)) : TaskOutput :=
  ws.foldl (fun acc w => if w.1 then (acc.WriteString w.2).2 else (acc.Write w.2).2) t

/-- The bytes handed to the sink by a sequence of calls, in call order. -/
def written (cs : List Call) : List UInt8 := (cs.map Call.payload).flatten

end queue

open queue

/-! ## api/repos.go -/

namespace api

/-- The fields of `deb.LocalRepo` the handlers read or assign, the value of
`Key()`, and the reference list behind `RefList()` and `UpdateRefList`. -/
structure LocalRepo (RL : Type) where
  Name : GoString
  Comment : GoString
  DefaultDistribution : GoString
  DefaultComponent : GoString
  Key : GoString
  RefList : RL

/-- A call that leaves the handler or its work function, in the order made. -/
inductive Event (RL : Type)
  | ByName (name : GoString)
  | LoadComplete (repo : LocalRepo RL)
  | Add (repo : LocalRepo RL)
  | Update (repo : LocalRepo RL)
  | Drop (repo : LocalRepo RL)
  | ByLocalRepo (repo : LocalRepo RL)
  | ByLocalRepoSource (repo : LocalRepo RL)
  | NewPackageListFromRefList (refs : RL)
  | ByKey (ref : GoString)
  | cb (ref : GoString)
  | Print (text : GoString)
  | UpdateRefList (refs : RL)
  | CollectPackageFiles (sources : List GoString)
  | ImportPackageFiles (files : List GoString)
  | Remove (path : GoString)

/-- The calls that change the local repository collection. -/
def Event.isMutation {RL : Type} : Event RL → Bool
  | .Add _ => true
  | .Update _ => true
  | .Drop _ => true
  | _ => false

/-- Whether the event is a call of `collection.Drop`. -/
def Event.isDrop {RL : Type} : Event RL → Bool
  | .Drop _ => true
  | _ => false

/-- Whether the event is `repo.UpdateRefList` or the collection `Update`. -/
def Event.isSave {RL : Type} : Event RL → Bool
  | .UpdateRefList _ => true
  | .Update _ => true
  | _ => false

/-- Whether the event is a call of `os.Remove`. -/
def Event.isRemove {RL : Type} : Event RL → Bool
  | .Remove _ => true
  | _ => false

/-- The path of an `os.Remove` call. -/
def Event.removed {RL : Type} : Event RL → Option GoString
  | .Remove path => some path
  | _ => none

/-- The reference of a `ByKey` call. -/
def Event.lookedUp {RL : Type} : Event RL → Option GoString
  | .ByKey ref => some ref
  | _ => none

/-- One run of a work function `func(out, detail) error`: the calls it made,
writes to `out` included, and the error it returned. -/
structure WorkRun (RL : Type) where
  trace : List (Event RL)
  err : Option GoError

/-- The arguments a handler hands to `runTaskInBackground`. -/
structure Submission (RL : Type) where
  name : GoString
  resources : List GoString
  work : Unit → WorkRun RL

/-- What `c.JSON` serialises. -/
inductive Body (RL T : Type)
  | repo (r : LocalRepo RL)
  | task (t : T)

/-- How a handler answers. `written` stands for a return after a helper
(`c.Bind`, `verifyDir`) that has answered the request itself. -/
inductive Response (RL T : Type)
  | written
  | AbortWithError (code : Nat) (err : GoError)
  | JSON (code : Nat) (obj : Body RL T)

/-- One run of a handler: the calls made by the handler body itself, the task
it submitted if it got that far, and its answer. -/
structure HandlerRun (RL T : Type) where
  calls : List (Event RL)
  submitted : Option (Submission RL)
  response : Response RL T

/-- The type of `runTaskInBackground(name, resources, proc)`: the task and the
conflict error. -/
abbrev Runner (RL T : Type) := GoString → List GoString → (Unit → WorkRun RL) → T × Option GoError

/-- The tail shared by the submitting handlers:
`if conflictErr != nil { c.AbortWithError(409, conflictErr); return }; c.JSON(202, task)`. -/
def respondToSubmit {RL T : Type} (r : T × Option GoError) : Response RL T :=
  match r.2 with
  | some conflictErr => .AbortWithError 409 conflictErr
  | none => .JSON 202 (.task r.1)

/-- The request body of `apiReposCreate`. -/
structure CreateBody where
  Name : GoString
  Comment : GoString
  DefaultDistribution : GoString
  DefaultComponent : GoString

/-- The request body of `apiReposEdit`; a nil pointer is `none`. -/
structure EditBody where
  Comment : Option GoString
  DefaultDistribution : Option GoString
  DefaultComponent : Option GoString

/-- `apiReposCreate`. `body` is what `c.Bind` produced (`none` when it failed),
`NewLocalRepo` is `deb.NewLocalRepo`, `Add` is `collection.Add`. -/
def apiReposCreate {RL T : Type} (NewLocalRepo : GoString → GoString → LocalRepo RL)
    (Add : LocalRepo RL → Option GoError) (body : Option CreateBody) : HandlerRun RL T :=
  match body with
  | none => ⟨[], none, .written⟩
  | some b =>
    let repo := NewLocalRepo b.Name b.Comment
    let repo := { repo with DefaultComponent := b.DefaultComponent }
    let repo := { repo with DefaultDistribution := b.DefaultDistribution }
    match Add repo with
    | some err => ⟨[.Add repo], none, .AbortWithError 400 err⟩
    | none => ⟨[.Add repo], none, .JSON 201 (.repo repo)⟩

/-- `apiReposEdit`. `name` is `c.Params.ByName("name")`. -/
def apiReposEdit {RL T : Type} (ByName : GoString → Except GoError (LocalRepo RL))
    (Update : LocalRepo RL → Option GoError) (body : Option EditBody) (name : GoString) :
    HandlerRun RL T :=
  match body with
  | none => ⟨[], none, .written⟩
  | some b =>
    match ByName name with
    | .error err => ⟨[.ByName name], none, .AbortWithError 404 err⟩
    | .ok repo =>
      let repo := match b.Comment with
        | some v => { repo with Comment := v }
        | none => repo
      let repo := match b.DefaultDistribution with
        | some v => { repo with DefaultDistribution := v }
        | none => repo
      let repo := match b.DefaultComponent with
        | some v => { repo with DefaultComponent := v }
        | none => repo
      match Update repo with
      | some err => ⟨[.ByName name, .Update repo], none, .AbortWithError 500 err⟩
      | none => ⟨[.ByName name, .Update repo], none, .JSON 200 (.repo repo)⟩

/-- The work function of `apiReposDrop`. `ByLocalRepo` and `ByLocalRepoSource`
give the length of the slice the collection returns. -/
def dropWork {RL : Type} (ByLocalRepo : LocalRepo RL → Nat) (ByLocalRepoSource : LocalRepo RL → Nat)
    (Drop : LocalRepo RL → Option GoError) (force : Bool) (repo : LocalRepo RL) : WorkRun RL :=
  let published := ByLocalRepo repo
  if published > 0 then
    ⟨[.ByLocalRepo repo], some (Errorf (ascii "unable to drop, local repo is published"))⟩
  else if !force then
    let snapshots := ByLocalRepoSource repo
    if snapshots > 0 then
      ⟨[.ByLocalRepo repo, .ByLocalRepoSource repo],
        some (Errorf (ascii "unable to drop, local repo has snapshots, use ?force=1 to override"))⟩
    else
      ⟨[.ByLocalRepo repo, .ByLocalRepoSource repo, .Drop repo], Drop repo⟩
  else
    ⟨[.ByLocalRepo repo, .Drop repo], Drop repo⟩

/-- `apiReposDrop`. `forceParam` is the query value of `force`, `name` is
`c.Params.ByName("name")`, `run` is `runTaskInBackground`. -/
def apiReposDrop {RL T : Type} (ByName : GoString → Except GoError (LocalRepo RL))
    (ByLocalRepo : LocalRepo RL → Nat) (ByLocalRepoSource : LocalRepo RL → Nat)
    (Drop : LocalRepo RL → Option GoError) (run : Runner RL T)
    (forceParam : GoString) (name : GoString) : HandlerRun RL T :=
  let force := decide (forceParam = ascii "1")
  match ByName name with
  | .error err => ⟨[.ByName name], none, .AbortWithError 404 err⟩
  | .ok repo =>
    let resources := [repo.Key]
    let taskName := ascii "Delete repo " ++ name
    let work := fun (_ : Unit) => dropWork ByLocalRepo ByLocalRepoSource Drop force repo
    ⟨[.ByName name], some ⟨taskName, resources, work⟩, respondToSubmit (run taskName resources work)⟩

/-- What the work function of `apiReposPackagesAddDelete` calls outside the
handlers. `cb` is the callback argument: it returns its error, the package list
it leaves behind and the texts it printed to `out`. -/
structure PackagesDeps (RL PL Pkg : Type) where
  NewPackageListFromRefList : RL → Except GoError PL
  ByKey : GoString → Except GoError Pkg
  cb : PL → Pkg → Option GoError × PL × List GoString
  NewPackageRefListFromPackageList : PL → RL
  Update : LocalRepo RL → Option GoError

/-- The calls made by the loop over `b.PackageRefs` and what it ends with: the
error it returns, or the package list after the last callback. -/
structure LoopRun (RL PL : Type) where
  trace : List (Event RL)
  result : Except GoError PL

/-- The loop `for _, ref := range b.PackageRefs` of the work function. -/
def packageRefsLoop {RL PL Pkg : Type} (d : PackagesDeps RL PL Pkg) :
    List GoString → PL → LoopRun RL PL
  | [], list => ⟨[], .ok list⟩
  | ref :: refs, list =>
    match d.ByKey ref with
    | .error err =>
      if err.isErrNotFound then
        ⟨[.ByKey ref], .error (Errorf (ascii "packages " ++ ref ++ ascii ": " ++ err.msg))⟩
      else
        ⟨[.ByKey ref], .error err⟩
    | .ok p =>
      match d.cb list p with
      | (some err, _, printed) =>
        ⟨[.ByKey ref, .cb ref] ++ printed.map Event.Print, .error err⟩
      | (none, list, printed) =>
        let rest := packageRefsLoop d refs list
        ⟨[.ByKey ref, .cb ref] ++ printed.map Event.Print ++ rest.trace, rest.result⟩

/-- The work function of `apiReposPackagesAddDelete`. -/
def addDeleteWork {RL PL Pkg : Type} (d : PackagesDeps RL PL Pkg) (PackageRefs : List GoString)
    (repo : LocalRepo RL) : WorkRun RL :=
  let head : List (Event RL) :=
    [.Print (ascii "Loading packages...\n"), .NewPackageListFromRefList repo.RefList]
  match d.NewPackageListFromRefList repo.RefList with
  | .error err => ⟨head, some err⟩
  | .ok list =>
    let loop := packageRefsLoop d PackageRefs list
    match loop.result with
    | .error err => ⟨head ++ loop.trace, some err⟩
    | .ok list =>
      let refs := d.NewPackageRefListFromPackageList list
      let repo := { repo with RefList := refs }
      ⟨head ++ loop.trace ++ [.UpdateRefList refs, .Update repo], d.Update repo⟩

/-- `apiReposPackagesAddDelete`. `body` is the `PackageRefs` field bound by
`c.Bind` (`none` when it failed), `LoadComplete` returns the repository with
its reference list loaded. -/
def apiReposPackagesAddDelete {RL PL Pkg T : Type}
    (ByName : GoString → Except GoError (LocalRepo RL))
    (LoadComplete : LocalRepo RL → Except GoError (LocalRepo RL))
    (d : PackagesDeps RL PL Pkg) (run : Runner RL T)
    (body : Option (List GoString)) (name : GoString) ( taskNamePrefix : GoString) :
    HandlerRun RL T :=
  match body with
  | none => ⟨[], none, .written⟩
  | some PackageRefs =>
    match ByName name with
    | .error err => ⟨[.ByName name], none, .AbortWithError 404 err⟩
    | .ok repo =>
      match LoadComplete repo with
      | .error err => ⟨[.ByName name, .LoadComplete repo], none, .AbortWithError 500 err⟩
      | .ok loaded =>
        let resources := [loaded.Key]
        let taskName := taskNamePrefix ++ loaded.Name
        let work := fun (_ : Unit) => addDeleteWork d PackageRefs loaded
        ⟨[.ByName name, .LoadComplete repo], some ⟨taskName, resources, work⟩,
          respondToSubmit (run taskName resources work)⟩

/-- The fields of `aptly.RecordingResultReporter`. -/
structure Reporter where
  Warnings : List GoString
  AddedLines : List GoString
  RemovedLines : List GoString

/-- The three results of `deb.CollectPackageFiles` and the reporter it leaves. -/
structure Collected where
  packageFiles : List GoString
  otherFiles : List GoString
  failedFiles : List GoString
  reporter : Reporter

/-- The three results of `deb.ImportPackageFiles`, the package list and the
reporter it leaves. -/
structure Imported (PL : Type) where
  processedFiles : List GoString
  failedFiles : List GoString
  err : Option GoError
  list : PL
  reporter : Reporter

/-- What the work function of `apiReposPackageFromDir` calls outside the
handlers. `Join` is `filepath.Join`, `Remove` is `os.Remove`, `Warning` is the
reporter method with its text already formatted. -/
structure ImportDeps (RL PL : Type) where
  UploadPath : GoString
  Join : List GoString → GoString
  CollectPackageFiles : List GoString → Reporter → Collected
  NewPackageListFromRefList : RL → Except GoError PL
  ImportPackageFiles : PL → List GoString → Bool → Reporter → Imported PL
  NewPackageRefListFromPackageList : PL → RL
  Update : LocalRepo RL → Option GoError
  StrSliceDeduplicate : List GoString → List GoString
  Remove : GoString → Option GoError
  Warning : Reporter → GoString → Reporter

/-- `strings.Join` of the Go library. -/
def stringsJoin (elems : List GoString) (sep : GoString) : GoString :=
  (elems.intersperse sep).flatten

/-- The loop `for _, file := range processedFiles` with `os.Remove`. -/
def removeLoop {RL PL : Type} (d : ImportDeps RL PL) :
    List GoString → Reporter → List (Event RL) × Reporter
  | [], reporter => ([], reporter)
  | file :: files, reporter =>
    let reporter := match d.Remove file with
      | some err =>
        d.Warning reporter (ascii "unable to remove file " ++ file ++ ascii ": " ++ err.msg)
      | none => reporter
    let rest := removeLoop d files reporter
    (.Remove file :: rest.1, rest.2)

/-- The four closing `out.Printf` calls of the import work function. -/
def reportLines {RL : Type} (reporter : Reporter) (failedFiles : List GoString) : List (Event RL) :=
  (if reporter.AddedLines.length > 0 then
    [Event.Print (ascii "Added: " ++ stringsJoin reporter.AddedLines (ascii ", ") ++ ascii "\n")]
   else []) ++
  (if reporter.RemovedLines.length > 0 then
    [Event.Print (ascii "Removed: " ++ stringsJoin reporter.RemovedLines (ascii ", ") ++ ascii "\n")]
   else []) ++
  (if reporter.Warnings.length > 0 then
    [Event.Print (ascii "Warnings: " ++ stringsJoin reporter.Warnings (ascii ", ") ++ ascii "\n")]
   else []) ++
  (if failedFiles.length > 0 then
    [Event.Print (ascii "Failed files: " ++ stringsJoin failedFiles (ascii ", ") ++ ascii "\n")]
   else [])

/-- The work function of `apiReposPackageFromDir`. -/
def fromDirWork {RL PL : Type} (d : ImportDeps RL PL) (dirParam fileParam : GoString)
    (forceReplace noRemove : Bool) (repo : LocalRepo RL) : WorkRun RL :=
  let reporter : Reporter := ⟨[], [], []⟩
  let sources :=
    if fileParam = [] then [d.Join [d.UploadPath, dirParam]]
    else [d.Join [d.UploadPath, dirParam, fileParam]]
  let c := d.CollectPackageFiles sources reporter
  let head : List (Event RL) :=
    [.CollectPackageFiles sources, .NewPackageListFromRefList repo.RefList]
  match d.NewPackageListFromRefList repo.RefList with
  | .error err => ⟨head, some (Errorf (ascii "unable to load packages: " ++ err.msg))⟩
  | .ok list =>
    let i := d.ImportPackageFiles list c.packageFiles forceReplace c.reporter
    let failedFiles := c.failedFiles ++ i.failedFiles
    let processedFiles := i.processedFiles ++ c.otherFiles
    let head := head ++ [.ImportPackageFiles c.packageFiles]
    match i.err with
    | some err => ⟨head, some (Errorf (ascii "unable to import package files: " ++ err.msg))⟩
    | none =>
      let refs := d.NewPackageRefListFromPackageList i.list
      let repo := { repo with RefList := refs }
      let head := head ++ [.UpdateRefList refs, .Update repo]
      match d.Update repo with
      | some err => ⟨head, some (Errorf (ascii "unable to save: " ++ err.msg))⟩
      | none =>
        let removal : List (Event RL) × Reporter :=
          if !noRemove then
            let processedFiles := d.StrSliceDeduplicate processedFiles
            let r := removeLoop d processedFiles i.reporter
            (r.1 ++ [.Remove (d.Join [d.UploadPath, dirParam])], r.2)
          else ([], i.reporter)
        ⟨head ++ removal.1 ++ reportLines removal.2 failedFiles, none⟩

/-- `apiReposPackageFromDir`. The two flags are the query values of
`forceReplace` and `noRemove`; `verifyDir` and `verifyPath` are the helpers of
the package. -/
def apiReposPackageFromDir {RL PL T : Type}
    (verifyDir : GoString → Bool) (verifyPath : GoString → Bool)
    (ByName : GoString → Except GoError (LocalRepo RL))
    (LoadComplete : LocalRepo RL → Except GoError (LocalRepo RL))
    (d : ImportDeps RL PL) (run : Runner RL T)
    (forceReplaceParam noRemoveParam : GoString) (name dirParam fileParam : GoString) :
    HandlerRun RL T :=
  let forceReplace := decide (forceReplaceParam = ascii "1")
  let noRemove := decide (noRemoveParam = ascii "1")
  if !verifyDir dirParam then ⟨[], none, .written⟩
  else if fileParam ≠ [] ∧ !verifyPath fileParam then
    ⟨[], none, .AbortWithError 400 (Errorf (ascii "wrong file"))⟩
  else
    match ByName name with
    | .error err => ⟨[.ByName name], none, .AbortWithError 404 err⟩
    | .ok repo =>
      match LoadComplete repo with
      | .error err => ⟨[.ByName name, .LoadComplete repo], none, .AbortWithError 500 err⟩
      | .ok loaded =>
        let taskName :=
          if fileParam ≠ [] then
            ascii "Add package " ++ fileParam ++ ascii " from dir " ++ dirParam ++
              ascii " to repo " ++ name
          else ascii "Add packages from dir " ++ dirParam ++ ascii " to repo " ++ name
        let resources := [loaded.Key]
        let work := fun (_ : Unit) => fromDirWork d dirParam fileParam forceReplace noRemove loaded
        ⟨[.ByName name, .LoadComplete repo], some ⟨taskName, resources, work⟩,
          respondToSubmit (run taskName resources work)⟩

end api


/-! ## The task runner, as the specification describes it -/

namespace task

/-- Modelled from the spec: the `mapping` of the Resource Lock Table, resource
key to owning task identifier, for all keys currently claimed. The lock table
is not among the source files. -/
abbrev LockTable := List (GoString × Int)

/-- Modelled from the spec: the owner a key is bound to in the mapping, `none`
when the key is free. -/
def LockTable.owner (m : LockTable) (k : GoString) : Option Int := m.lookup k

/-- Modelled from the spec: the two outcomes of `tryClaim`. -/
inductive ClaimResult
  | success
  | conflict
  deriving DecidableEq, Repr

/-- Modelled from the spec: `tryClaim(keys, owner)` of the Resource Lock Table,
which is not among the source files. It checks every key against the mapping;
only if all are free it inserts all of them bound to `owner`; on any key
already present it reports a conflict and leaves the mapping as it was. -/
def tryClaim (m : LockTable) (keys : List GoString) (owner : Int) : ClaimResult × LockTable :=
  if keys.all (fun k => (m.owner k).isNone) then
    (.success, keys.map (fun k => (k, owner)) ++ m)
  else
    (.conflict, m)

/-- Modelled from the spec: `release(keys)` of the Resource Lock Table removes
all listed keys unconditionally. -/
def release (m : LockTable) (keys : List GoString) : LockTable :=
  m.filter (fun e => !keys.contains e.1)

/-- Modelled from the spec: the Task the Scheduler allocates on admission, with
state RUNNING and a fresh Output Sink. The Scheduler is not among the source
files. -/
def newTask (id : Int) (name : GoString) (process : TaskOutput → Option GoError × TaskOutput) :
    Task :=
  { output := TaskOutput.empty, process := process, Name := name, ID := id, State := .RUNNING }

/-- Modelled from the spec: the execution wrapper of the Scheduler, which is
not among the source files. It runs the work function; on a nil return it sets
state SUCCEEDED; on a non-nil error it sets state FAILED and appends the
error message to the Output Sink. -/
def execute (t : Task) : Task :=
  match t.process t.output with
  | (none, out) => { t with output := out, State := .SUCCEEDED }
  | (some err, out) => { t with output := (out.WriteString err.msg).2, State := .FAILED }

/-- Modelled from the spec: the per-task state machine. Its only transitions
are RUNNING to SUCCEEDED and RUNNING to FAILED, taken by the execution wrapper;
no other state has a transition. -/
def step (t : Task) : Option Task :=
  match t.State with
  | .RUNNING => some (execute t)
  | _ => none

end task

/-! ## Reading a run -/

namespace api

/-- The references handed to `ByKey`, in call order. -/
def lookups {RL : Type} (trace : List (Event RL)) : List GoString :=
  trace.filterMap Event.lookedUp

/-- The paths handed to `os.Remove`, in call order. -/
def removals {RL : Type} (trace : List (Event RL)) : List GoString :=
  trace.filterMap Event.removed

/-- Every reference of the list is found by `ByKey` and its callback returns
nil, the callbacks running in list order from the package list `list`; `final`
is the package list the last callback leaves. -/
def allResolved {RL PL Pkg : Type} (d : PackagesDeps RL PL Pkg) : List GoString → PL → PL → Prop
  | [], list, final => final = list
  | ref :: refs, list, final =>
    ∃ p, d.ByKey ref = .ok p ∧ (d.cb list p).1 = none ∧ allResolved d refs (d.cb list p).2.1 final

/-- The `sources` slice of the import work function. -/
def importSources {RL PL : Type} (d : ImportDeps RL PL) (dirParam fileParam : GoString) :
    List GoString :=
  if fileParam = [] then [d.Join [d.UploadPath, dirParam]]
  else [d.Join [d.UploadPath, dirParam, fileParam]]

/-- What `deb.CollectPackageFiles` returns in the import work function. -/
def collected {RL PL : Type} (d : ImportDeps RL PL) (dirParam fileParam : GoString) : Collected :=
  d.CollectPackageFiles (importSources d dirParam fileParam) ⟨[], [], []⟩

/-- What `deb.ImportPackageFiles` returns in the import work function, from
the loaded package list `list`. -/
def imported {RL PL : Type} (d : ImportDeps RL PL) (dirParam fileParam : GoString)
    (forceReplace : Bool) (list : PL) : Imported PL :=
  d.ImportPackageFiles list (collected d dirParam fileParam).packageFiles forceReplace
    (collected d dirParam fileParam).reporter

/-- The repository the import work function hands to `Update`. -/
def importedRepo {RL PL : Type} (d : ImportDeps RL PL) (repo : LocalRepo RL) (i : Imported PL) :
    LocalRepo RL :=
  { repo with RefList := d.NewPackageRefListFromPackageList i.list }

/-- Loading the package list, `ImportPackageFiles` and the repository `Update`
all returned no error; `list` is the loaded package list. -/
def importSucceeded {RL PL : Type} (d : ImportDeps RL PL) (dirParam fileParam : GoString)
    (forceReplace : Bool) (repo : LocalRepo RL) (list : PL) : Prop :=
  d.NewPackageListFromRefList repo.RefList = .ok list ∧
  (imported d dirParam fileParam forceReplace list).err = none ∧
  d.Update (importedRepo d repo (imported d dirParam fileParam forceReplace list)) = none

/-- The slice `processedFiles` after `append(processedFiles, otherFiles...)`. -/
def processedAndOther {RL PL : Type} (d : ImportDeps RL PL) (dirParam fileParam : GoString)
    (forceReplace : Bool) (list : PL) : List GoString :=
  (imported d dirParam fileParam forceReplace list).processedFiles ++
    (collected d dirParam fileParam).otherFiles

end api

namespace api

/-- The repository `apiReposCreate` hands to `collection.Add`: the new
repository with the two defaults of the request assigned. -/
def createdRepo {RL : Type} (NewLocalRepo : GoString → GoString → LocalRepo RL) (b : CreateBody) :
    LocalRepo RL :=
  { NewLocalRepo b.Name b.Comment with
    DefaultComponent := b.DefaultComponent
    DefaultDistribution := b.DefaultDistribution }

/-- The repository `apiReposEdit` hands to `collection.Update`: every field
whose pointer in the request is not nil is assigned. -/
def editedRepo {RL : Type} (repo : LocalRepo RL) (b : EditBody) : LocalRepo RL :=
  { repo with
    Comment := b.Comment.getD repo.Comment
    DefaultDistribution := b.DefaultDistribution.getD repo.DefaultDistribution
    DefaultComponent := b.DefaultComponent.getD repo.DefaultComponent }

/-- The task name of `apiReposPackageFromDir`. -/
def importTaskName (name dirParam fileParam : GoString) : GoString :=
  if fileParam = [] then
    ascii "Add packages from dir " ++ dirParam ++ ascii " to repo " ++ name
  else
    ascii "Add package " ++ fileParam ++ ascii " from dir " ++ dirParam ++ ascii " to repo " ++ name

/-- The calls of a run that change the local repository collection. -/
def mutations {RL : Type} (trace : List (Event RL)) : List (Event RL) :=
  trace.filter Event.isMutation

end api

namespace task

/-- Modelled from the spec: what a Task handle carries as observed from
outside, its identifier, name and state. -/
structure TaskView where
  ID : Int
  Name : GoString
  State : State
  deriving DecidableEq, Repr

/-- Modelled from the spec: `submit(name, resourceKeys, workFn)` of the
Scheduler, which is not among the source files. It calls `tryClaim`; on a
conflict it returns the conflict error and creates no task; on success it
allocates a task with a fresh identifier in state RUNNING and returns its
handle without waiting for the work function. `locks` and `nextID` are the
state of the Scheduler, `conflictErr` is the conflict error it reports. -/
def submit {RL : Type} (locks : LockTable) (nextID : Int) (conflictErr : GoError) :
    api.Runner RL TaskView := fun name resources _ =>
  match (tryClaim locks resources nextID).1 with
  | .conflict => (⟨0, [], .IDLE⟩, some conflictErr)
  | .success => (⟨nextID, name, .RUNNING⟩, none)

end task

/-! ## Concrete inputs -/

namespace sample

/-- The work function of the scenario: it writes nothing and returns the error
`disk full`. -/
def diskFull (out : TaskOutput) : Option GoError × TaskOutput :=
  (some (Errorf (ascii "disk full")), out)

/-- Task C of the scenario, as admitted. -/
def taskC : Task := task.newTask 3 (ascii "C") diskFull

/-- A lock table in which `repo:foo` is held by task 1. -/
def heldFoo : task.LockTable := [(ascii "repo:foo", 1)]

/-- A local repository with a unit reference list. -/
def repoFoo : api.LocalRepo Unit :=
  { Name := ascii "foo", Comment := [], DefaultDistribution := [], DefaultComponent := [],
    Key := ascii "Lfoo", RefList := () }

/-- Package collaborators over a unit reference list: packages are their
keys, the package list is the list of keys added, `Pmissing` is not found. -/
def packagesDeps : api.PackagesDeps Unit (List GoString) GoString :=
  { NewPackageListFromRefList := fun _ => .ok []
    ByKey := fun ref =>
      if ref = ascii "Pmissing" then .error ⟨ascii "key not found", true⟩ else .ok ref
    cb := fun list p => (none, list ++ [p], [ascii "Adding package " ++ p ++ ascii "\n"])
    NewPackageRefListFromPackageList := fun _ => ()
    Update := fun _ => none }

/-- Import collaborators: one package file found twice and listed again among
the other files, every step succeeds, every `os.Remove` fails. -/
def importDeps : api.ImportDeps Unit (List GoString) :=
  { UploadPath := ascii "/up"
    Join := fun parts => api.stringsJoin parts (ascii "/")
    CollectPackageFiles := fun _ r =>
      ⟨[ascii "/up/d/a.deb", ascii "/up/d/a.deb"], [ascii "/up/d/a.deb"], [], r⟩
    NewPackageListFromRefList := fun _ => .ok []
    ImportPackageFiles := fun list files _ r => ⟨files, [], none, list ++ files, r⟩
    NewPackageRefListFromPackageList := fun _ => ()
    Update := fun _ => none
    StrSliceDeduplicate := List.dedup
    Remove := fun _ => some ⟨ascii "permission denied", false⟩
    Warning := fun r text => { r with Warnings := r.Warnings ++ [text] } }

/-- A stand-in for `deb.NewLocalRepo`: the key is `L` followed by the name. -/
def newLocalRepo (name comment : GoString) : api.LocalRepo Unit :=
  { Name := name, Comment := comment, DefaultDistribution := [], DefaultComponent := [],
    Key := ascii "L" ++ name, RefList := () }

/-- A create request for the repository `foo`. -/
def createBody : api.CreateBody :=
  { Name := ascii "foo", Comment := [], DefaultDistribution := [], DefaultComponent := [] }

/-- An edit request that sets the comment. -/
def editBody : api.EditBody :=
  { Comment := some (ascii "new"), DefaultDistribution := none, DefaultComponent := none }

/-- A collection that holds the repository `foo` only. -/
def byName (name : GoString) : Except GoError (api.LocalRepo Unit) :=
  if name = ascii "foo" then .ok repoFoo else .error ⟨ascii "local repo not found", false⟩

/-- A runner in which the key `Lfoo` is held by a running task: a submission
on it is a conflict, any other submission is task 7. -/
def busyRunner : api.Runner Unit Nat := fun _ resources _ =>
  if resources = [ascii "Lfoo"] then (0, some ⟨ascii "resource conflict", false⟩) else (7, none)

/-- A runner in which no key is held: every submission is task 7. -/
def freeRunner : api.Runner Unit Nat := fun _ _ _ => (7, none)

end sample

/-! ## Properties of the output sink -/

theorem writeSeq_output (ws : List (Bool × List UInt8)) (t : TaskOutput) :
    (writeSeq t ws).output = t.output ++ (ws.map Prod.snd).flatten := by
  induction ws generalizing t with
  | nil => simp [writeSeq]
  | cons w ws ih =>
    have h := ih (if w.1 then (t.WriteString w.2).2 else (t.Write w.2).2)
    simp only [writeSeq, List.foldl_cons] at h ⊢
    rw [h]
    cases w.1 <;> simp [TaskOutput.Write, TaskOutput.WriteString, bufferWrite, List.append_assoc]

/-- C1: writing the byte strings `W1..Wn` in order (each with `Write` or
`WriteString`) to an empty `TaskOutput` and then calling `String()` returns
exactly `W1 ++ ... ++ Wn`; each `Wi` therefore stands once, contiguously,
between the bytes written before it and the bytes written after it. -/
theorem taskOutput_round_trip :
    (∀ ws : List (Bool × List UInt8),
      ((writeSeq TaskOutput.empty ws).String).1 = (ws.map Prod.snd).flatten) ∧
    (∀ (pre post : List (Bool × List UInt8)) (w : Bool × List UInt8),
      ((writeSeq TaskOutput.empty (pre ++ w :: post)).String).1 =
        (pre.map Prod.snd).flatten ++ w.2 ++ (post.map Prod.snd).flatten) := by
  constructor
  · intro ws
    simp [TaskOutput.String, bufferString, writeSeq_output, TaskOutput.empty]
  · intro pre post w
    simp [TaskOutput.String, bufferString, writeSeq_output, TaskOutput.empty]

/-- C2: `Write(p)` returns `n = len(p)` and a nil error, and `WriteString(s)`
returns `n = len(s)` and a nil error, in every state and for every argument,
the empty one included. -/
theorem taskOutput_write_never_fails (t : TaskOutput) (p : List UInt8) (s : GoString) :
    (t.Write p).1 = (p.length, none) ∧ (t.WriteString s).1 = (s.length, none) ∧
    (t.Write []).1 = (0, none) ∧ (t.WriteString []).1 = (0, none) := by
  simp [TaskOutput.Write, TaskOutput.WriteString, bufferWrite]

theorem perform_output (t : TaskOutput) (c : Call) :
    (perform t c).1.output = t.output ++ c.payload := by
  cases c <;> simp [perform, TaskOutput.String, TaskOutput.Write, TaskOutput.WriteString,
    bufferWrite, Call.payload]

theorem performAll_output (cs : List Call) (t : TaskOutput) :
    (performAll t cs).1.output = t.output ++ written cs := by
  induction cs generalizing t with
  | nil => simp [performAll, written]
  | cons c cs ih =>
    simp only [performAll, ih, perform_output]
    simp [written, List.append_assoc]

theorem performAll_append (pre post : List Call) (t : TaskOutput) :
    performAll t (pre ++ post) =
      ((performAll (performAll t pre).1 post).1,
        (performAll t pre).2 ++ (performAll (performAll t pre).1 post).2) := by
  induction pre generalizing t with
  | nil => simp [performAll]
  | cons c cs ih => simp [performAll, ih, List.append_assoc]

theorem performAll_reads_length (cs : List Call) (t : TaskOutput) :
    (performAll t cs).2.length = (cs.filter Call.isRead).length := by
  induction cs generalizing t with
  | nil => simp [performAll]
  | cons c cs ih =>
    cases c <;> simp [performAll, perform, ih, Call.isRead]

theorem performAll_reads_extend (cs : List Call) (t : TaskOutput) :
    ∀ r ∈ (performAll t cs).2, t.output <+: r := by
  induction cs generalizing t with
  | nil => simp [performAll]
  | cons c cs ih =>
    intro r hr
    simp only [performAll, List.mem_append] at hr
    rcases hr with hr | hr
    · cases c <;> simp [perform, TaskOutput.String, bufferString] at hr
      subst hr
      exact List.prefix_refl _
    · have h := ih (perform t c).1 r hr
      rw [perform_output] at h
      exact List.IsPrefix.trans (List.prefix_append _ _) h

theorem performAll_reads_pairwise (cs : List Call) (t : TaskOutput) :
    List.Pairwise (fun a b => a <+: b) (performAll t cs).2 := by
  induction cs generalizing t with
  | nil => simp [performAll]
  | cons c cs ih =>
    simp only [performAll]
    rw [List.pairwise_append]
    refine ⟨?_, ih _, ?_⟩
    · cases c <;> simp [perform]
    · intro a ha b hb
      have h := performAll_reads_extend cs (perform t c).1 b hb
      cases c <;> simp [perform, TaskOutput.String, bufferString] at ha
      subst ha
      simpa [perform, TaskOutput.String] using h

/-- C3: on one `TaskOutput`, starting empty, under any sequence of `String()`,
`Write` and `WriteString` calls: every `String()` returns the concatenation of
exactly the writes made before it; `String()` leaves the contents as they are;
every call keeps the earlier contents as a leading part of the new contents;
and the text of an earlier `String()` is a leading part of the text of every
later one. -/
theorem taskOutput_snapshots_consistent :
    (∀ pre post : List Call,
      (performAll TaskOutput.empty (pre ++ Call.String :: post)).2.get?
        (pre.filter Call.isRead).length = some (written pre)) ∧
    (∀ t : TaskOutput, (t.String).2 = t) ∧
    (∀ (t : TaskOutput) (c : Call), t.output <+: (perform t c).1.output) ∧
    (∀ cs : List Call,
      List.Pairwise (fun a b => a <+: b) (performAll TaskOutput.empty cs).2) := by
  refine ⟨?_, ?_, ?_, ?_⟩
  · intro pre post
    rw [performAll_append]
    have hlen := performAll_reads_length pre TaskOutput.empty
    simp only [List.get?_eq_getElem?]
    rw [← hlen, List.getElem?_append_right (le_refl _)]
    simp [performAll, perform, TaskOutput.String, bufferString, performAll_output,
      TaskOutput.empty]
  · intro t
    rfl
  · intro t c
    rw [perform_output]
    exact List.prefix_append _ _
  · intro cs
    exact performAll_reads_pairwise cs _

/-! ## Properties of the lock table and of the execution wrapper -/

theorem lookup_claimed (keys : List GoString) (owner : Int) (m : task.LockTable) (k : GoString) :
    (keys.map (fun x => (x, owner)) ++ m).lookup k = if k ∈ keys then some owner else m.lookup k := by
  induction keys with
  | nil => simp
  | cons x xs ih =>
    simp only [List.map_cons, List.cons_append, List.lookup_cons, List.mem_cons]
    by_cases hx : k = x
    · subst hx
      simp
    · have hb : (k == x) = false := by simpa using hx
      simp [hb, hx, ih]

/-- C6: `tryClaim` reports success exactly when none of the keys is bound in
the mapping. On success the new mapping binds every key of the set to the
owner and every other key as before; on a conflict some key of the set was
bound already and the mapping returned is the one passed in. -/
theorem tryClaim_all_or_nothing (m : task.LockTable) (keys : List GoString) (owner : Int) :
    ((task.tryClaim m keys owner).1 = .success ↔ ∀ k ∈ keys, m.owner k = none) ∧
    (((task.tryClaim m keys owner).1 = .success ∧
        ∀ k, (task.tryClaim m keys owner).2.owner k =
          if k ∈ keys then some owner else m.owner k) ∨
     ((task.tryClaim m keys owner).1 = .conflict ∧
        (∃ k ∈ keys, m.owner k ≠ none) ∧ (task.tryClaim m keys owner).2 = m)) := by
  by_cases h : keys.all (fun k => (m.owner k).isNone) = true
  · have hall : ∀ k ∈ keys, m.owner k = none := by
      intro k hk
      have := List.all_eq_true.mp h k hk
      simpa [Option.isNone_iff_eq_none] using this
    have ht : task.tryClaim m keys owner =
        (.success, keys.map (fun k => (k, owner)) ++ m) := by
      simp [task.tryClaim, h]
    refine ⟨?_, Or.inl ⟨?_, ?_⟩⟩
    · exact ⟨fun _ => hall, fun _ => by rw [ht]⟩
    · rw [ht]
    · intro k
      rw [ht]
      exact lookup_claimed keys owner m k
  · have hex : ∃ k ∈ keys, m.owner k ≠ none := by
      by_contra hne
      apply h
      rw [List.all_eq_true]
      intro k hk
      have : m.owner k = none := by
        by_contra hk2
        exact hne ⟨k, hk, hk2⟩
      simp [this]
    refine ⟨?_, Or.inr ⟨?_, hex, ?_⟩⟩
    · constructor
      · intro hs
        simp [task.tryClaim, h] at hs
      · intro hall
        obtain ⟨k, hk, hne⟩ := hex
        exact absurd (hall k hk) hne
    · simp [task.tryClaim, h]
    · simp [task.tryClaim, h]

/-- Witness of C6 on a table holding `repo:foo`: claiming `repo:foo` together
with `repo:bar` is a conflict and the table stays as it was, claiming
`repo:bar` alone succeeds and binds it to the owner. -/
theorem tryClaim_all_or_nothing_witness :
    (task.tryClaim sample.heldFoo [ascii "repo:bar", ascii "repo:foo"] 2).1 = .conflict ∧
    (task.tryClaim sample.heldFoo [ascii "repo:bar", ascii "repo:foo"] 2).2 = sample.heldFoo ∧
    (task.tryClaim sample.heldFoo [ascii "repo:bar"] 2).1 = .success ∧
    (task.tryClaim sample.heldFoo [ascii "repo:bar"] 2).2.owner (ascii "repo:bar") = some 2 := by
  refine ⟨?_, ?_, ?_, ?_⟩
  · have h := (tryClaim_all_or_nothing sample.heldFoo [ascii "repo:bar", ascii "repo:foo"] 2).1
    cases hc : (task.tryClaim sample.heldFoo [ascii "repo:bar", ascii "repo:foo"] 2).1 with
    | conflict => rfl
    | success =>
      have h2 := h.mp hc (ascii "repo:foo") (by simp)
      exact absurd h2 (by decide)
  · decide
  · exact (tryClaim_all_or_nothing sample.heldFoo [ascii "repo:bar"] 2).1.mpr (by decide)
  · decide

/-- C7: for a task in state RUNNING the execution wrapper is the transition
taken. When the work function returns nil the task ends SUCCEEDED with the
output the work function left; when it returns an error the task ends FAILED
and the text of its output contains the error message. A task in state
SUCCEEDED or FAILED has no transition. -/
theorem execute_reaches_final_state (t : Task) (h : t.State = .RUNNING) :
    task.step t = some (task.execute t) ∧
    (∀ out, t.process t.output = (none, out) →
      (task.execute t).State = .SUCCEEDED ∧ (task.execute t).output = out) ∧
    (∀ err out, t.process t.output = (some err, out) →
      (task.execute t).State = .FAILED ∧ err.msg <:+: ((task.execute t).output.String).1) ∧
    task.step (task.execute t) = none ∧
    (∀ u : Task, u.State = .SUCCEEDED ∨ u.State = .FAILED → task.step u = none) := by
  refine ⟨?_, ?_, ?_, ?_, ?_⟩
  · simp [task.step, h]
  · intro out ho
    simp [task.execute, ho]
  · intro err out ho
    simp only [task.execute, ho, TaskOutput.String, TaskOutput.WriteString, bufferWrite,
      bufferString, true_and]
    exact ⟨out.output, [], by simp⟩
  · cases hp : t.process t.output with
    | mk e out =>
      cases e <;> simp [task.step, task.execute, hp]
  · intro u hu
    rcases hu with hu | hu <;> simp [task.step, hu]

/-- Witness of C7, the scenario of task C: admitted RUNNING, its work function
returns the error `disk full`; it ends FAILED with `disk full` in its output. -/
theorem execute_reaches_final_state_witness :
    sample.taskC.State = .RUNNING ∧
    (task.execute sample.taskC).State = .FAILED ∧
    ascii "disk full" <:+: ((task.execute sample.taskC).output.String).1 ∧
    task.step (task.execute sample.taskC) = none :=
  ⟨rfl,
    ((execute_reaches_final_state sample.taskC rfl).2.2.1 (Errorf (ascii "disk full"))
      TaskOutput.empty rfl).1,
    ((execute_reaches_final_state sample.taskC rfl).2.2.1 (Errorf (ascii "disk full"))
      TaskOutput.empty rfl).2,
    (execute_reaches_final_state sample.taskC rfl).2.2.2.1⟩

/-! ## Properties of the work functions -/

open api

/-- C8: the work function of `apiReposDrop` returns the error
`unable to drop, local repo is published` when the repository has a published
repository, whatever `force` is; otherwise, with `force` unset and a snapshot
present, the error about snapshots; in every other case what `collection.Drop`
returns. `collection.Drop` is called, once, exactly when the repository is
unpublished and `force` is set or there is no snapshot. The work function the
handler submits is this one, with `force` set exactly by the query value `1`. -/
theorem dropWork_result {RL : Type} (ByLocalRepo ByLocalRepoSource : LocalRepo RL → Nat)
    (Drop : LocalRepo RL → Option GoError) (force : Bool) (repo : LocalRepo RL) :
    (dropWork ByLocalRepo ByLocalRepoSource Drop force repo).err =
      (if ByLocalRepo repo > 0 then
        some (Errorf (ascii "unable to drop, local repo is published"))
      else if force = false ∧ ByLocalRepoSource repo > 0 then
        some (Errorf (ascii "unable to drop, local repo has snapshots, use ?force=1 to override"))
      else Drop repo) ∧
    (dropWork ByLocalRepo ByLocalRepoSource Drop force repo).trace.filter Event.isDrop =
      (if ByLocalRepo repo = 0 ∧ (force = true ∨ ByLocalRepoSource repo = 0) then [.Drop repo]
      else []) ∧
    ((dropWork ByLocalRepo ByLocalRepoSource Drop force repo).trace.any Event.isDrop = true ↔
      ByLocalRepo repo = 0 ∧ (force = true ∨ ByLocalRepoSource repo = 0)) ∧
    (0 < ByLocalRepo repo →
      (dropWork ByLocalRepo ByLocalRepoSource Drop true repo).err =
        some (Errorf (ascii "unable to drop, local repo is published")) ∧
      (dropWork ByLocalRepo ByLocalRepoSource Drop true repo).trace.any Event.isDrop = false) ∧
    (∀ (T : Type) (ByName : GoString → Except GoError (LocalRepo RL)) (run : Runner RL T)
        (forceParam name : GoString),
      (apiReposDrop ByName ByLocalRepo ByLocalRepoSource Drop run forceParam name).submitted.map
          (fun s => s.work ()) =
        (ByName name).toOption.map
          (dropWork ByLocalRepo ByLocalRepoSource Drop (decide (forceParam = ascii "1")))) := by
  refine ⟨?_, ?_, ?_, ?_, ?_⟩
  · unfold dropWork
    by_cases hp : ByLocalRepo repo > 0
    · simp [hp]
    · by_cases hs : ByLocalRepoSource repo > 0 <;> cases force <;> simp [hp, hs]
  · unfold dropWork
    by_cases hp : ByLocalRepo repo > 0
    · have : ByLocalRepo repo ≠ 0 := by omega
      simp [hp, this, Event.isDrop]
    · have hp0 : ByLocalRepo repo = 0 := by omega
      by_cases hs : ByLocalRepoSource repo > 0
      · have : ByLocalRepoSource repo ≠ 0 := by omega
        cases force <;> simp [hp0, hs, this, Event.isDrop]
      · have hs0 : ByLocalRepoSource repo = 0 := by omega
        cases force <;> simp [hp0, hs0, Event.isDrop]
  · unfold dropWork
    by_cases hp : ByLocalRepo repo > 0
    · have : ByLocalRepo repo ≠ 0 := by omega
      simp [hp, this, Event.isDrop]
    · have hp0 : ByLocalRepo repo = 0 := by omega
      by_cases hs : ByLocalRepoSource repo > 0
      · have : ByLocalRepoSource repo ≠ 0 := by omega
        cases force <;> simp [hp0, hs, this, Event.isDrop]
      · have hs0 : ByLocalRepoSource repo = 0 := by omega
        cases force <;> simp [hp0, hs0, Event.isDrop]
  · intro hp
    unfold dropWork
    simp [hp, Event.isDrop]
  · intro T ByName run forceParam name
    unfold apiReposDrop
    cases ByName name <;> simp [Except.toOption]

/-- Witness of C8: a published repository is not dropped even with `force`. -/
theorem dropWork_result_witness :
    (dropWork (fun _ => 1) (fun _ => 0) (fun _ => none) true sample.repoFoo).err =
        some (Errorf (ascii "unable to drop, local repo is published")) ∧
      (dropWork (fun _ => 1) (fun _ => 0) (fun _ => none) true sample.repoFoo).trace.any
        Event.isDrop = false :=
  (dropWork_result (fun _ => 1) (fun _ => 0) (fun _ => none) true sample.repoFoo).2.2.2.1
    (by decide)

theorem packageRefsLoop_lookup_fails {RL PL Pkg : Type} (d : PackagesDeps RL PL Pkg)
    (ref : GoString) (refs : List GoString) (list : PL) (err : GoError)
    (hk : d.ByKey ref = .error err) :
    packageRefsLoop d (ref :: refs) list =
      ⟨[.ByKey ref], .error (if err.isErrNotFound = true then
        Errorf (ascii "packages " ++ ref ++ ascii ": " ++ err.msg) else err)⟩ := by
  simp only [packageRefsLoop, hk]
  split <;> rfl

theorem packageRefsLoop_cb_fails {RL PL Pkg : Type} (d : PackagesDeps RL PL Pkg)
    (ref : GoString) (refs : List GoString) (list l : PL) (pkg : Pkg) (err : GoError)
    (printed : List GoString) (hk : d.ByKey ref = .ok pkg)
    (hcb : d.cb list pkg = (some err, l, printed)) :
    packageRefsLoop d (ref :: refs) list =
      ⟨[.ByKey ref, .cb ref] ++ printed.map Event.Print, .error err⟩ := by
  simp only [packageRefsLoop, hk, hcb]

theorem packageRefsLoop_cb_succeeds {RL PL Pkg : Type} (d : PackagesDeps RL PL Pkg)
    (ref : GoString) (refs : List GoString) (list l : PL) (pkg : Pkg)
    (printed : List GoString) (hk : d.ByKey ref = .ok pkg)
    (hcb : d.cb list pkg = (none, l, printed)) :
    packageRefsLoop d (ref :: refs) list =
      ⟨[.ByKey ref, .cb ref] ++ printed.map Event.Print ++ (packageRefsLoop d refs l).trace,
        (packageRefsLoop d refs l).result⟩ := by
  simp only [packageRefsLoop, hk, hcb]

theorem lookups_prints {RL : Type} (printed : List GoString) :
    lookups (printed.map Event.Print : List (Event RL)) = [] := by
  induction printed with
  | nil => rfl
  | cons x xs ih =>
    simp only [lookups] at ih
    simp [lookups, Event.lookedUp, ih]

theorem lookups_append {RL : Type} (a b : List (Event RL)) :
    lookups (a ++ b) = lookups a ++ lookups b := by
  simp [lookups, List.filterMap_append]

theorem saves_prints {RL : Type} (printed : List GoString) :
    (printed.map Event.Print : List (Event RL)).filter Event.isSave = [] := by
  induction printed with
  | nil => rfl
  | cons x xs ih => simp [Event.isSave, ih]

theorem lookups_step {RL : Type} (ref : GoString) (printed : List GoString) :
    lookups ([.ByKey ref, .cb ref] ++ printed.map Event.Print : List (Event RL)) = [ref] := by
  rw [lookups_append, lookups_prints]
  simp [lookups, Event.lookedUp]

theorem saves_step {RL : Type} (ref : GoString) (printed : List GoString) :
    ([.ByKey ref, .cb ref] ++ printed.map Event.Print : List (Event RL)).filter Event.isSave
      = [] := by
  rw [List.filter_append, saves_prints]
  simp [Event.isSave]

theorem packageRefsLoop_lookups {RL PL Pkg : Type} (d : PackagesDeps RL PL Pkg)
    (refs : List GoString) (list : PL) :
    lookups (packageRefsLoop d refs list).trace <+: refs := by
  induction refs generalizing list with
  | nil => simp [packageRefsLoop, lookups]
  | cons ref refs ih =>
    cases hk : d.ByKey ref with
    | error err =>
      rw [packageRefsLoop_lookup_fails d ref refs list err hk]
      simp [lookups, Event.lookedUp, List.prefix_cons_inj]
    | ok pkg =>
      rcases hcb : d.cb list pkg with ⟨e, l, printed⟩
      cases e with
      | some err =>
        rw [packageRefsLoop_cb_fails d ref refs list l pkg err printed hk hcb]
        simp only [lookups_step]
        simp [List.prefix_cons_inj]
      | none =>
        rw [packageRefsLoop_cb_succeeds d ref refs list l pkg printed hk hcb]
        rw [lookups_append, lookups_step]
        simpa [List.prefix_cons_inj] using ih l

theorem packageRefsLoop_saves {RL PL Pkg : Type} (d : PackagesDeps RL PL Pkg)
    (refs : List GoString) (list : PL) :
    (packageRefsLoop d refs list).trace.filter Event.isSave = [] := by
  induction refs generalizing list with
  | nil => simp [packageRefsLoop]
  | cons ref refs ih =>
    cases hk : d.ByKey ref with
    | error err =>
      rw [packageRefsLoop_lookup_fails d ref refs list err hk]
      simp [Event.isSave]
    | ok pkg =>
      rcases hcb : d.cb list pkg with ⟨e, l, printed⟩
      cases e with
      | some err =>
        rw [packageRefsLoop_cb_fails d ref refs list l pkg err printed hk hcb]
        exact saves_step ref printed
      | none =>
        rw [packageRefsLoop_cb_succeeds d ref refs list l pkg printed hk hcb]
        rw [List.filter_append, saves_step, ih l]
        rfl

theorem packageRefsLoop_ok_iff {RL PL Pkg : Type} (d : PackagesDeps RL PL Pkg)
    (refs : List GoString) (list final : PL) :
    (packageRefsLoop d refs list).result = .ok final ↔ allResolved d refs list final := by
  induction refs generalizing list with
  | nil =>
    simp only [packageRefsLoop, allResolved]
    constructor
    · intro h
      injection h with h
      exact h.symm
    · intro h
      rw [h]
  | cons ref refs ih =>
    simp only [allResolved]
    cases hk : d.ByKey ref with
    | error err =>
      rw [packageRefsLoop_lookup_fails d ref refs list err hk]
      simp
    | ok pkg =>
      rcases hcb : d.cb list pkg with ⟨e, l, printed⟩
      cases e with
      | some err =>
        rw [packageRefsLoop_cb_fails d ref refs list l pkg err printed hk hcb]
        simp [hcb]
      | none =>
        rw [packageRefsLoop_cb_succeeds d ref refs list l pkg printed hk hcb]
        simp [hcb, ih l]

theorem packageRefsLoop_append {RL PL Pkg : Type} (d : PackagesDeps RL PL Pkg)
    (pre rest : List GoString) (list mid : PL) (h : allResolved d pre list mid) :
    (packageRefsLoop d (pre ++ rest) list).result = (packageRefsLoop d rest mid).result ∧
    lookups (packageRefsLoop d (pre ++ rest) list).trace =
      pre ++ lookups (packageRefsLoop d rest mid).trace ∧
    (packageRefsLoop d (pre ++ rest) list).trace.filter Event.isSave = [] := by
  refine ⟨?_, ?_, packageRefsLoop_saves d _ _⟩
  · induction pre generalizing list with
    | nil =>
      simp only [allResolved] at h
      subst h
      simp
    | cons ref refs ih =>
      simp only [allResolved] at h
      obtain ⟨pkg, hk, hnone, hrest⟩ := h
      rcases hcb : d.cb list pkg with ⟨e, l, printed⟩
      rw [hcb] at hnone hrest
      simp only at hnone hrest
      subst hnone
      rw [List.cons_append, packageRefsLoop_cb_succeeds d ref _ list l pkg printed hk hcb]
      exact ih l hrest
  · induction pre generalizing list with
    | nil =>
      simp only [allResolved] at h
      subst h
      simp
    | cons ref refs ih =>
      simp only [allResolved] at h
      obtain ⟨pkg, hk, hnone, hrest⟩ := h
      rcases hcb : d.cb list pkg with ⟨e, l, printed⟩
      rw [hcb] at hnone hrest
      simp only at hnone hrest
      subst hnone
      rw [List.cons_append, packageRefsLoop_cb_succeeds d ref _ list l pkg printed hk hcb]
      rw [lookups_append, lookups_step, ih l hrest]
      rfl

theorem addDeleteWork_load_fails {RL PL Pkg : Type} (d : PackagesDeps RL PL Pkg)
    (refs : List GoString) (repo : LocalRepo RL) (err : GoError)
    (hload : d.NewPackageListFromRefList repo.RefList = .error err) :
    addDeleteWork d refs repo =
      ⟨[.Print (ascii "Loading packages...\n"), .NewPackageListFromRefList repo.RefList],
        some err⟩ := by
  simp only [addDeleteWork, hload]

theorem addDeleteWork_loop_fails {RL PL Pkg : Type} (d : PackagesDeps RL PL Pkg)
    (refs : List GoString) (repo : LocalRepo RL) (list0 : PL) (err : GoError)
    (hload : d.NewPackageListFromRefList repo.RefList = .ok list0)
    (hres : (packageRefsLoop d refs list0).result = .error err) :
    addDeleteWork d refs repo =
      ⟨[.Print (ascii "Loading packages...\n"), .NewPackageListFromRefList repo.RefList] ++
        (packageRefsLoop d refs list0).trace, some err⟩ := by
  simp only [addDeleteWork, hload, hres]

theorem addDeleteWork_loop_succeeds {RL PL Pkg : Type} (d : PackagesDeps RL PL Pkg)
    (refs : List GoString) (repo : LocalRepo RL) (list0 final : PL)
    (hload : d.NewPackageListFromRefList repo.RefList = .ok list0)
    (hres : (packageRefsLoop d refs list0).result = .ok final) :
    addDeleteWork d refs repo =
      ⟨[.Print (ascii "Loading packages...\n"), .NewPackageListFromRefList repo.RefList] ++
        (packageRefsLoop d refs list0).trace ++
        [.UpdateRefList (d.NewPackageRefListFromPackageList final),
          .Update { repo with RefList := d.NewPackageRefListFromPackageList final }],
        d.Update { repo with RefList := d.NewPackageRefListFromPackageList final }⟩ := by
  simp only [addDeleteWork, hload, hres]

theorem lookups_head {RL : Type} (refs : RL) (rest : List (Event RL)) :
    lookups ([.Print (ascii "Loading packages...\n"), .NewPackageListFromRefList refs] ++ rest) =
      lookups rest := by
  simp [lookups, Event.lookedUp]

theorem saves_head {RL : Type} (refs : RL) (rest : List (Event RL)) :
    List.filter Event.isSave
        ([Event.Print (ascii "Loading packages...\n"), Event.NewPackageListFromRefList refs] ++
          rest) = List.filter Event.isSave rest := by
  simp [Event.isSave]

theorem any_save_iff {RL : Type} (trace : List (Event RL)) :
    trace.any Event.isSave = true ↔ trace.filter Event.isSave ≠ [] := by
  rw [Ne, List.filter_eq_nil_iff, List.any_eq_true]
  constructor
  · rintro ⟨a, ha, hs⟩ hall
    exact hall a ha hs
  · intro h
    by_contra hne
    apply h
    intro a ha hs
    exact hne ⟨a, ha, hs⟩

theorem addDeleteWork_failure_at {RL PL Pkg : Type} (d : PackagesDeps RL PL Pkg)
    (repo : LocalRepo RL) (pre post : List GoString) (ref : GoString) (list0 list1 : PL)
    (err : GoError) (tr : List (Event RL))
    (hload : d.NewPackageListFromRefList repo.RefList = .ok list0)
    (hpre : allResolved d pre list0 list1)
    (hstep : packageRefsLoop d (ref :: post) list1 = ⟨tr, .error err⟩)
    (hlk : lookups tr = [ref]) :
    (addDeleteWork d (pre ++ ref :: post) repo).err = some err ∧
    lookups (addDeleteWork d (pre ++ ref :: post) repo).trace = pre ++ [ref] ∧
    (addDeleteWork d (pre ++ ref :: post) repo).trace.filter Event.isSave = [] := by
  obtain ⟨h1, h2, h3⟩ := packageRefsLoop_append d pre (ref :: post) list0 list1 hpre
  rw [hstep] at h1 h2
  simp only at h1 h2
  rw [addDeleteWork_loop_fails d _ repo list0 err hload h1]
  refine ⟨rfl, ?_, ?_⟩
  · simp only [lookups_head, h2, hlk]
  · simp only [saves_head, h3]

/-- C9: the work function of `apiReposPackagesAddDelete` looks the references
up in list order. When the package list does not load it returns that error
without any lookup. When the references before `ref` were all found and their
callbacks returned nil, and the lookup of `ref` fails, it returns the error
(text `packages <ref>: <err>` for `database.ErrNotFound`, the error itself
otherwise); when the callback of `ref` fails it returns that error; in both
cases `ref` is the last reference looked up and neither `UpdateRefList` nor
`Update` is called. When every reference is found and every callback returns
nil, `UpdateRefList` and `Update` are called once, with the list the last
callback left, and the result of `Update` is returned. Hence `UpdateRefList`
or `Update` is called exactly when the list loaded and every reference was
resolved with a successful callback. -/
theorem addDeleteWork_all_or_nothing {RL PL Pkg : Type} (d : PackagesDeps RL PL Pkg)
    (repo : LocalRepo RL) :
    (∀ refs, lookups (addDeleteWork d refs repo).trace <+: refs) ∧
    (∀ refs err, d.NewPackageListFromRefList repo.RefList = .error err →
      (addDeleteWork d refs repo).err = some err ∧
      lookups (addDeleteWork d refs repo).trace = [] ∧
      (addDeleteWork d refs repo).trace.filter Event.isSave = []) ∧
    (∀ pre post ref list0 list1, d.NewPackageListFromRefList repo.RefList = .ok list0 →
      allResolved d pre list0 list1 →
      (∀ err, d.ByKey ref = .error err →
        (addDeleteWork d (pre ++ ref :: post) repo).err =
          some (if err.isErrNotFound = true then
            Errorf (ascii "packages " ++ ref ++ ascii ": " ++ err.msg) else err) ∧
        lookups (addDeleteWork d (pre ++ ref :: post) repo).trace = pre ++ [ref] ∧
        (addDeleteWork d (pre ++ ref :: post) repo).trace.filter Event.isSave = []) ∧
      (∀ pkg err, d.ByKey ref = .ok pkg → (d.cb list1 pkg).1 = some err →
        (addDeleteWork d (pre ++ ref :: post) repo).err = some err ∧
        lookups (addDeleteWork d (pre ++ ref :: post) repo).trace = pre ++ [ref] ∧
        (addDeleteWork d (pre ++ ref :: post) repo).trace.filter Event.isSave = [])) ∧
    (∀ refs list0 final, d.NewPackageListFromRefList repo.RefList = .ok list0 →
      allResolved d refs list0 final →
      (addDeleteWork d refs repo).err =
        d.Update { repo with RefList := d.NewPackageRefListFromPackageList final } ∧
      lookups (addDeleteWork d refs repo).trace = refs ∧
      (addDeleteWork d refs repo).trace.filter Event.isSave =
        [.UpdateRefList (d.NewPackageRefListFromPackageList final),
          .Update { repo with RefList := d.NewPackageRefListFromPackageList final }]) ∧
    (∀ refs, (addDeleteWork d refs repo).trace.any Event.isSave = true ↔
      ∃ list0 final, d.NewPackageListFromRefList repo.RefList = .ok list0 ∧
        allResolved d refs list0 final) := by
  refine ⟨?_, ?_, ?_, ?_, ?_⟩
  · intro refs
    cases hload : d.NewPackageListFromRefList repo.RefList with
    | error err =>
      rw [addDeleteWork_load_fails d refs repo err hload]
      simp [lookups, Event.lookedUp]
    | ok list0 =>
      cases hres : (packageRefsLoop d refs list0).result with
      | error err =>
        rw [addDeleteWork_loop_fails d refs repo list0 err hload hres]
        simpa only [lookups_head] using packageRefsLoop_lookups d refs list0
      | ok final =>
        rw [addDeleteWork_loop_succeeds d refs repo list0 final hload hres]
        simp only [List.append_assoc, lookups_head]
        rw [lookups_append]
        simpa [lookups, Event.lookedUp] using packageRefsLoop_lookups d refs list0
  · intro refs err hload
    rw [addDeleteWork_load_fails d refs repo err hload]
    simp [lookups, Event.lookedUp, Event.isSave]
  · intro pre post ref list0 list1 hload hpre
    constructor
    · intro err hk
      exact addDeleteWork_failure_at d repo pre post ref list0 list1 _ _ hload hpre
        (packageRefsLoop_lookup_fails d ref post list1 err hk)
        (by simp [lookups, Event.lookedUp])
    · intro pkg err hk hcb
      rcases hc : d.cb list1 pkg with ⟨e, l, printed⟩
      rw [hc] at hcb
      simp only at hcb
      subst hcb
      exact addDeleteWork_failure_at d repo pre post ref list0 list1 _ _ hload hpre
        (packageRefsLoop_cb_fails d ref post list1 l pkg err printed hk hc)
        (lookups_step ref printed)
  · intro refs list0 final hload hall
    have hres := (packageRefsLoop_ok_iff d refs list0 final).mpr hall
    have happ := packageRefsLoop_append d refs [] list0 final hall
    rw [List.append_nil] at happ
    rw [addDeleteWork_loop_succeeds d refs repo list0 final hload hres]
    refine ⟨rfl, ?_, ?_⟩
    · simp only [List.append_assoc, lookups_head]
      rw [lookups_append, happ.2.1]
      simp [packageRefsLoop, lookups, Event.lookedUp]
    · simp only [List.append_assoc, saves_head]
      rw [List.filter_append, happ.2.2]
      simp [Event.isSave]
  · intro refs
    rw [any_save_iff]
    cases hload : d.NewPackageListFromRefList repo.RefList with
    | error err =>
      rw [addDeleteWork_load_fails d refs repo err hload]
      simp [Event.isSave]
    | ok list0 =>
      cases hres : (packageRefsLoop d refs list0).result with
      | error err =>
        rw [addDeleteWork_loop_fails d refs repo list0 err hload hres]
        simp only [saves_head, packageRefsLoop_saves]
        simp only [ne_eq, not_true_eq_false, false_iff]
        rintro ⟨l0, final, hl, hall⟩
        injection hl with hl
        subst hl
        rw [← packageRefsLoop_ok_iff, hres] at hall
        cases hall
      | ok final =>
        rw [addDeleteWork_loop_succeeds d refs repo list0 final hload hres]
        simp only [List.append_assoc, saves_head]
        rw [List.filter_append, packageRefsLoop_saves]
        constructor
        · intro _
          exact ⟨list0, final, rfl, (packageRefsLoop_ok_iff d refs list0 final).mp hres⟩
        · intro _
          simp [Event.isSave]

/-- Witness of C9: of the references `Pa`, `Pmissing`, `Pb` the second is not
found; the work function returns `packages Pmissing: key not found`, `Pb` is
never looked up and nothing is saved. -/
theorem addDeleteWork_all_or_nothing_witness :
    (addDeleteWork sample.packagesDeps [ascii "Pa", ascii "Pmissing", ascii "Pb"]
        sample.repoFoo).err = some (Errorf (ascii "packages Pmissing: key not found")) ∧
    lookups (addDeleteWork sample.packagesDeps [ascii "Pa", ascii "Pmissing", ascii "Pb"]
        sample.repoFoo).trace = [ascii "Pa", ascii "Pmissing"] ∧
    (addDeleteWork sample.packagesDeps [ascii "Pa", ascii "Pmissing", ascii "Pb"]
        sample.repoFoo).trace.filter Event.isSave = [] :=
  ((addDeleteWork_all_or_nothing sample.packagesDeps sample.repoFoo).2.2.1
    [ascii "Pa"] [ascii "Pb"] (ascii "Pmissing") [] [ascii "Pa"] rfl
    ⟨ascii "Pa", rfl, rfl, rfl⟩).1 ⟨ascii "key not found", true⟩ rfl

theorem removeLoop_removals {RL PL : Type} (d : ImportDeps RL PL) (files : List GoString)
    (reporter : Reporter) :
    removals (removeLoop d files reporter).1 = files := by
  induction files generalizing reporter with
  | nil => rfl
  | cons file files ih =>
    simp only [removeLoop, removals, List.filterMap_cons, Event.removed]
    simp only [removals] at ih
    rw [ih]

theorem reportLines_removals {RL : Type} (reporter : Reporter) (failedFiles : List GoString) :
    removals (reportLines reporter failedFiles : List (Event RL)) = [] := by
  unfold reportLines removals
  simp only [List.filterMap_append]
  split <;> split <;> split <;> split <;> simp [Event.removed]

theorem removals_append {RL : Type} (a b : List (Event RL)) :
    removals (a ++ b) = removals a ++ removals b := by
  simp [removals, List.filterMap_append]

theorem any_remove_iff {RL : Type} (trace : List (Event RL)) :
    trace.any Event.isRemove = true ↔ removals trace ≠ [] := by
  induction trace with
  | nil => simp [removals]
  | cons e es ih =>
    cases e <;> simp_all [removals, Event.isRemove, Event.removed]

theorem fromDirWork_load_fails {RL PL : Type} (d : ImportDeps RL PL)
    (dirParam fileParam : GoString) (forceReplace noRemove : Bool) (repo : LocalRepo RL)
    (err : GoError) (hload : d.NewPackageListFromRefList repo.RefList = .error err) :
    (fromDirWork d dirParam fileParam forceReplace noRemove repo).err =
        some (Errorf (ascii "unable to load packages: " ++ err.msg)) ∧
      removals (fromDirWork d dirParam fileParam forceReplace noRemove repo).trace = [] := by
  simp [fromDirWork, hload, removals, Event.removed]

theorem fromDirWork_import_fails {RL PL : Type} (d : ImportDeps RL PL)
    (dirParam fileParam : GoString) (forceReplace noRemove : Bool) (repo : LocalRepo RL)
    (list : PL) (err : GoError) (hload : d.NewPackageListFromRefList repo.RefList = .ok list)
    (himp : (imported d dirParam fileParam forceReplace list).err = some err) :
    (fromDirWork d dirParam fileParam forceReplace noRemove repo).err =
        some (Errorf (ascii "unable to import package files: " ++ err.msg)) ∧
      removals (fromDirWork d dirParam fileParam forceReplace noRemove repo).trace = [] := by
  simp only [imported, collected, importSources] at himp
  simp [fromDirWork, hload, himp, removals, Event.removed]

theorem fromDirWork_update_fails {RL PL : Type} (d : ImportDeps RL PL)
    (dirParam fileParam : GoString) (forceReplace noRemove : Bool) (repo : LocalRepo RL)
    (list : PL) (err : GoError) (hload : d.NewPackageListFromRefList repo.RefList = .ok list)
    (himp : (imported d dirParam fileParam forceReplace list).err = none)
    (hupd : d.Update (importedRepo d repo (imported d dirParam fileParam forceReplace list)) =
      some err) :
    (fromDirWork d dirParam fileParam forceReplace noRemove repo).err =
        some (Errorf (ascii "unable to save: " ++ err.msg)) ∧
      removals (fromDirWork d dirParam fileParam forceReplace noRemove repo).trace = [] := by
  simp only [imported, importedRepo, collected, importSources] at himp hupd
  simp [fromDirWork, hload, himp, hupd, removals, Event.removed]

theorem fromDirWork_succeeds {RL PL : Type} (d : ImportDeps RL PL)
    (dirParam fileParam : GoString) (forceReplace noRemove : Bool) (repo : LocalRepo RL)
    (list : PL) (h : importSucceeded d dirParam fileParam forceReplace repo list) :
    (fromDirWork d dirParam fileParam forceReplace noRemove repo).err = none ∧
      removals (fromDirWork d dirParam fileParam forceReplace noRemove repo).trace =
        if noRemove = true then []
        else d.StrSliceDeduplicate (processedAndOther d dirParam fileParam forceReplace list) ++
          [d.Join [d.UploadPath, dirParam]] := by
  obtain ⟨hload, himp, hupd⟩ := h
  simp only [imported, importedRepo, collected, importSources] at himp hupd
  simp only [fromDirWork, hload, himp, hupd, processedAndOther, imported, collected,
    importSources, true_and]
  cases noRemove with
  | true =>
    simp only [removals_append, reportLines_removals]
    simp [removals, Event.removed]
  | false =>
    simp only [removals_append, reportLines_removals, Bool.not_false, if_true,
      removeLoop_removals]
    simp [removals, Event.removed]

theorem fromDirWork_cases {RL PL : Type} (d : ImportDeps RL PL)
    (dirParam fileParam : GoString) (forceReplace noRemove : Bool) (repo : LocalRepo RL) :
    (∃ list, importSucceeded d dirParam fileParam forceReplace repo list) ∨
    ((¬ ∃ list, importSucceeded d dirParam fileParam forceReplace repo list) ∧
      (fromDirWork d dirParam fileParam forceReplace noRemove repo).err ≠ none ∧
      removals (fromDirWork d dirParam fileParam forceReplace noRemove repo).trace = []) := by
  cases hload : d.NewPackageListFromRefList repo.RefList with
  | error err =>
    right
    have h := fromDirWork_load_fails d dirParam fileParam forceReplace noRemove repo err hload
    refine ⟨?_, by simp [h.1], h.2⟩
    rintro ⟨list, hl, _⟩
    rw [hload] at hl
    cases hl
  | ok list =>
    cases himp : (imported d dirParam fileParam forceReplace list).err with
    | some err =>
      right
      have h := fromDirWork_import_fails d dirParam fileParam forceReplace noRemove repo list err
        hload himp
      refine ⟨?_, by simp [h.1], h.2⟩
      rintro ⟨l, hl, hi, _⟩
      rw [hload] at hl
      injection hl with hl
      subst hl
      rw [himp] at hi
      cases hi
    | none =>
      cases hupd : d.Update
          (importedRepo d repo (imported d dirParam fileParam forceReplace list)) with
      | some err =>
        right
        have h := fromDirWork_update_fails d dirParam fileParam forceReplace noRemove repo list
          err hload himp hupd
        refine ⟨?_, by simp [h.1], h.2⟩
        rintro ⟨l, hl, _, hu⟩
        rw [hload] at hl
        injection hl with hl
        subst hl
        rw [hupd] at hu
        cases hu
      | none =>
        left
        exact ⟨list, hload, himp, hupd⟩

/-- C10: the import work function of `apiReposPackageFromDir` calls `os.Remove`
exactly when loading the package list, `ImportPackageFiles` and the repository
`Update` all returned no error and `noRemove` is unset. It then removes the
elements of `StrSliceDeduplicate(processedFiles ++ otherFiles)` in order and
after them the upload directory, and returns nil whatever the removals return.
When `StrSliceDeduplicate` returns the distinct elements of its argument, the
files removed are the elements of `processedFiles ++ otherFiles`, each once. When an earlier step fails or `noRemove` is
set, nothing is removed; the function returns nil exactly when the three steps
returned no error. -/
theorem fromDirWork_removes_only_after_success {RL PL : Type} (d : ImportDeps RL PL)
    (dirParam fileParam : GoString) (forceReplace noRemove : Bool) (repo : LocalRepo RL) :
    ((fromDirWork d dirParam fileParam forceReplace noRemove repo).trace.any Event.isRemove
        = true ↔
      noRemove = false ∧ ∃ list, importSucceeded d dirParam fileParam forceReplace repo list) ∧
    (∀ list, importSucceeded d dirParam fileParam forceReplace repo list →
      (fromDirWork d dirParam fileParam forceReplace noRemove repo).err = none ∧
      removals (fromDirWork d dirParam fileParam forceReplace noRemove repo).trace =
        if noRemove = true then []
        else d.StrSliceDeduplicate (processedAndOther d dirParam fileParam forceReplace list) ++
          [d.Join [d.UploadPath, dirParam]]) ∧
    ((∀ l, (d.StrSliceDeduplicate l).Nodup ∧ ∀ x, x ∈ d.StrSliceDeduplicate l ↔ x ∈ l) →
      ∀ list, importSucceeded d dirParam fileParam forceReplace repo list → noRemove = false →
      (removals (fromDirWork d dirParam fileParam forceReplace noRemove repo).trace).dropLast.Nodup ∧
      ∀ file,
        file ∈ (removals
            (fromDirWork d dirParam fileParam forceReplace noRemove repo).trace).dropLast ↔
          file ∈ processedAndOther d dirParam fileParam forceReplace list) ∧
    ((fromDirWork d dirParam fileParam forceReplace noRemove repo).err ≠ none ∨ noRemove = true →
      removals (fromDirWork d dirParam fileParam forceReplace noRemove repo).trace = []) ∧
    ((fromDirWork d dirParam fileParam forceReplace noRemove repo).err = none ↔
      ∃ list, importSucceeded d dirParam fileParam forceReplace repo list) := by
  have hcases := fromDirWork_cases d dirParam fileParam forceReplace noRemove repo
  refine ⟨?_, ?_, ?_, ?_, ?_⟩
  · rw [any_remove_iff]
    rcases hcases with ⟨list, hs⟩ | ⟨hno, _, hrem⟩
    · have h := (fromDirWork_succeeds d dirParam fileParam forceReplace noRemove repo list hs).2
      rw [h]
      cases noRemove with
      | true => simp
      | false =>
        simp only [Bool.false_eq_true, if_false, true_and]
        exact ⟨fun _ => ⟨list, hs⟩, fun _ => by simp⟩
    · rw [hrem]
      constructor
      · intro h
        exact absurd rfl h
      · rintro ⟨_, h⟩
        exact absurd h hno
  · intro list hs
    exact fromDirWork_succeeds d dirParam fileParam forceReplace noRemove repo list hs
  · intro hd list hs hn
    have h := (fromDirWork_succeeds d dirParam fileParam forceReplace noRemove repo list hs).2
    rw [h, hn]
    simp only [Bool.false_eq_true, if_false, List.dropLast_concat]
    exact ⟨(hd _).1, (hd _).2⟩
  · intro h
    rcases hcases with ⟨list, hs⟩ | ⟨_, _, hrem⟩
    · have hok := fromDirWork_succeeds d dirParam fileParam forceReplace noRemove repo list hs
      rcases h with h | h
      · exact absurd hok.1 h
      · rw [hok.2, h]
        rfl
    · exact hrem
  · rcases hcases with ⟨list, hs⟩ | ⟨hno, herr, _⟩
    · have hok := fromDirWork_succeeds d dirParam fileParam forceReplace noRemove repo list hs
      exact ⟨fun _ => ⟨list, hs⟩, fun _ => hok.1⟩
    · exact ⟨fun h => absurd h herr, fun h => absurd h hno⟩

/-- Witness of C10: `a.deb` is processed twice and listed once more among the
other files, every step succeeds and every `os.Remove` fails; the file is
removed once, then the upload directory, and the function returns nil. -/
theorem fromDirWork_removes_only_after_success_witness :
    (fromDirWork sample.importDeps (ascii "d") [] false false sample.repoFoo).err = none ∧
    removals (fromDirWork sample.importDeps (ascii "d") [] false false sample.repoFoo).trace =
      [ascii "/up/d/a.deb", ascii "/up/d"] ∧
    (removals (fromDirWork sample.importDeps (ascii "d") [] false false
      sample.repoFoo).trace).dropLast.Nodup := by
  have hs : importSucceeded sample.importDeps (ascii "d") [] false sample.repoFoo [] :=
    ⟨rfl, rfl, rfl⟩
  have h := fromDirWork_removes_only_after_success sample.importDeps (ascii "d") [] false false
    sample.repoFoo
  refine ⟨(h.2.1 [] hs).1, ?_, ?_⟩
  · rw [(h.2.1 [] hs).2]
    decide
  · exact (h.2.2.1 (fun l => ⟨List.nodup_dedup l, fun x => List.mem_dedup⟩) [] hs rfl).1

/-! ## Properties of the handlers -/

/-- C4, as stated, fails: `apiReposCreate` calls `collection.Add` and
`apiReposEdit` calls `collection.Update` in the handler body, and neither
submits a task. -/
theorem create_and_edit_mutate_in_handler :
    ((apiReposCreate sample.newLocalRepo (fun _ => none) (some sample.createBody) :
        HandlerRun Unit Nat).calls.any Event.isMutation = true ∧
      (apiReposCreate sample.newLocalRepo (fun _ => none) (some sample.createBody) :
        HandlerRun Unit Nat).submitted.isNone = true) ∧
    ((apiReposEdit sample.byName (fun _ => none) (some sample.editBody) (ascii "foo") :
        HandlerRun Unit Nat).calls.any Event.isMutation = true ∧
      (apiReposEdit sample.byName (fun _ => none) (some sample.editBody) (ascii "foo") :
        HandlerRun Unit Nat).submitted.isNone = true) := by
  refine ⟨⟨rfl, rfl⟩, ⟨rfl, rfl⟩⟩

theorem mutations_prints {RL : Type} (printed : List GoString) :
    mutations (printed.map Event.Print : List (Event RL)) = [] := by
  induction printed with
  | nil => rfl
  | cons x xs ih =>
    simp only [mutations] at ih
    simp [mutations, Event.isMutation, ih]

theorem mutations_append {RL : Type} (a b : List (Event RL)) :
    mutations (a ++ b) = mutations a ++ mutations b := by
  simp [mutations]

theorem mutations_packageRefsLoop {RL PL Pkg : Type} (d : PackagesDeps RL PL Pkg)
    (refs : List GoString) (list : PL) :
    mutations (packageRefsLoop d refs list).trace = [] := by
  induction refs generalizing list with
  | nil => simp [packageRefsLoop, mutations]
  | cons ref refs ih =>
    cases hk : d.ByKey ref with
    | error err =>
      rw [packageRefsLoop_lookup_fails d ref refs list err hk]
      simp [mutations, Event.isMutation]
    | ok pkg =>
      rcases hcb : d.cb list pkg with ⟨e, l, printed⟩
      cases e with
      | some err =>
        rw [packageRefsLoop_cb_fails d ref refs list l pkg err printed hk hcb]
        rw [mutations_append, mutations_prints]
        simp [mutations, Event.isMutation]
      | none =>
        rw [packageRefsLoop_cb_succeeds d ref refs list l pkg printed hk hcb]
        rw [mutations_append, mutations_append, mutations_prints, ih l]
        simp [mutations, Event.isMutation]

theorem mutations_removeLoop {RL PL : Type} (d : ImportDeps RL PL) (files : List GoString)
    (reporter : Reporter) :
    mutations (removeLoop d files reporter).1 = [] := by
  induction files generalizing reporter with
  | nil => rfl
  | cons file files ih =>
    simp only [removeLoop, mutations, List.filter_cons, Event.isMutation]
    simp only [mutations] at ih
    simp [ih]

theorem mutations_reportLines {RL : Type} (reporter : Reporter) (failedFiles : List GoString) :
    mutations (reportLines reporter failedFiles : List (Event RL)) = [] := by
  unfold reportLines mutations
  simp only [List.filter_append]
  split <;> split <;> split <;> split <;> simp [Event.isMutation]

theorem mutations_addDeleteWork {RL PL Pkg : Type} (d : PackagesDeps RL PL Pkg)
    (refs : List GoString) (repo : LocalRepo RL) :
    (∀ list0 final, d.NewPackageListFromRefList repo.RefList = .ok list0 →
      allResolved d refs list0 final →
      mutations (addDeleteWork d refs repo).trace =
        [.Update { repo with RefList := d.NewPackageRefListFromPackageList final }]) ∧
    ((¬ ∃ list0 final, d.NewPackageListFromRefList repo.RefList = .ok list0 ∧
        allResolved d refs list0 final) →
      mutations (addDeleteWork d refs repo).trace = []) := by
  constructor
  · intro list0 final hload hall
    have hres := (packageRefsLoop_ok_iff d refs list0 final).mpr hall
    rw [addDeleteWork_loop_succeeds d refs repo list0 final hload hres]
    simp only
    rw [mutations_append, mutations_append, mutations_packageRefsLoop]
    simp [mutations, Event.isMutation]
  · intro hno
    cases hload : d.NewPackageListFromRefList repo.RefList with
    | error err =>
      rw [addDeleteWork_load_fails d refs repo err hload]
      simp [mutations, Event.isMutation]
    | ok list0 =>
      cases hres : (packageRefsLoop d refs list0).result with
      | error err =>
        rw [addDeleteWork_loop_fails d refs repo list0 err hload hres]
        simp only
        rw [mutations_append, mutations_packageRefsLoop]
        simp [mutations, Event.isMutation]
      | ok final =>
        exact absurd ⟨list0, final, hload, (packageRefsLoop_ok_iff d refs list0 final).mp hres⟩
          hno

theorem mutations_fromDirWork {RL PL : Type} (d : ImportDeps RL PL)
    (dirParam fileParam : GoString) (forceReplace noRemove : Bool) (repo : LocalRepo RL) :
    (∀ list, d.NewPackageListFromRefList repo.RefList = .ok list →
      (imported d dirParam fileParam forceReplace list).err = none →
      mutations (fromDirWork d dirParam fileParam forceReplace noRemove repo).trace =
        [.Update (importedRepo d repo (imported d dirParam fileParam forceReplace list))]) ∧
    ((¬ ∃ list, d.NewPackageListFromRefList repo.RefList = .ok list ∧
        (imported d dirParam fileParam forceReplace list).err = none) →
      mutations (fromDirWork d dirParam fileParam forceReplace noRemove repo).trace = []) := by
  constructor
  · intro list hload himp
    simp only [imported, collected, importSources] at himp
    simp only [fromDirWork, hload, himp, importedRepo, imported, collected, importSources]
    split
    · simp [mutations, Event.isMutation]
    · simp only [mutations_append, mutations_reportLines]
      cases noRemove with
      | true => simp [mutations, Event.isMutation]
      | false =>
        simp only [Bool.not_false, if_true, mutations_append, mutations_removeLoop]
        simp [mutations, Event.isMutation]
  · intro hno
    cases hload : d.NewPackageListFromRefList repo.RefList with
    | error err => simp [fromDirWork, hload, mutations, Event.isMutation]
    | ok list =>
      cases himp : (imported d dirParam fileParam forceReplace list).err with
      | none => exact absurd ⟨list, hload, himp⟩ hno
      | some err =>
        simp only [imported, collected, importSources] at himp
        simp [fromDirWork, hload, himp, mutations, Event.isMutation]

/-- C4, amended: the bodies of `apiReposDrop`, `apiReposPackagesAddDelete` and
`apiReposPackageFromDir` make no call of `Add`, `Update` or `Drop`; whenever
they get as far as the repository they submit one task, named as the source
names it, whose resources are the single key of that repository and whose
work function is the one that mutates: it calls `Drop` exactly when the
repository is unpublished and `force` is set or there is no snapshot, or
`Update` exactly when the package list loaded and every reference was
resolved (add and delete), or when the package list loaded and the import
returned no error (import). `apiReposCreate` and `apiReposEdit` submit no
task: after a successful bind `apiReposCreate` calls `Add` itself and answers
201 with the repository, or 400 with the error of `Add`; `apiReposEdit` calls
`Update` itself once `ByName` has found the repository and answers 200 with
the repository, or 500 with the error of `Update`, and 404 when `ByName`
fails. -/
theorem mutations_by_handler {RL PL Pkg T : Type}
    (ByName : GoString → Except GoError (LocalRepo RL))
    (LoadComplete : LocalRepo RL → Except GoError (LocalRepo RL)) (run : Runner RL T)
    (name : GoString) :
    (∀ (ByLocalRepo ByLocalRepoSource : LocalRepo RL → Nat) (Drop : LocalRepo RL → Option GoError)
        (forceParam : GoString),
      (apiReposDrop ByName ByLocalRepo ByLocalRepoSource Drop run forceParam name).calls.any
          Event.isMutation = false ∧
      (apiReposDrop ByName ByLocalRepo ByLocalRepoSource Drop run forceParam
          name).submitted.map (fun s => (s.name, s.resources, s.work ())) =
        (ByName name).toOption.map (fun r => (ascii "Delete repo " ++ name, [r.Key],
          dropWork ByLocalRepo ByLocalRepoSource Drop (decide (forceParam = ascii "1")) r))) ∧
    (∀ (ByLocalRepo ByLocalRepoSource : LocalRepo RL → Nat) (Drop : LocalRepo RL → Option GoError)
        (force : Bool) (repo : LocalRepo RL),
      mutations (dropWork ByLocalRepo ByLocalRepoSource Drop force repo).trace =
        if ByLocalRepo repo = 0 ∧ (force = true ∨ ByLocalRepoSource repo = 0) then [.Drop repo]
        else []) ∧
    (∀ (d : PackagesDeps RL PL Pkg) (body : Option (List GoString)) (namePrefix : GoString),
      (apiReposPackagesAddDelete ByName LoadComplete d run body name namePrefix).calls.any
          Event.isMutation = false ∧
      (apiReposPackagesAddDelete ByName LoadComplete d run body name
          namePrefix).submitted.map (fun s => (s.name, s.resources, s.work ())) =
        body.bind (fun refs => ((ByName name).toOption.bind
          (fun r => (LoadComplete r).toOption)).map
            (fun r => (namePrefix ++ r.Name, [r.Key], addDeleteWork d refs r)))) ∧
    (∀ (d : PackagesDeps RL PL Pkg) (refs : List GoString) (repo : LocalRepo RL),
      (∀ list0 final, d.NewPackageListFromRefList repo.RefList = .ok list0 →
        allResolved d refs list0 final →
        mutations (addDeleteWork d refs repo).trace =
          [.Update { repo with RefList := d.NewPackageRefListFromPackageList final }]) ∧
      ((¬ ∃ list0 final, d.NewPackageListFromRefList repo.RefList = .ok list0 ∧
          allResolved d refs list0 final) →
        mutations (addDeleteWork d refs repo).trace = [])) ∧
    (∀ (verifyDir verifyPath : GoString → Bool) (d : ImportDeps RL PL)
        (forceReplaceParam noRemoveParam dirParam fileParam : GoString),
      (apiReposPackageFromDir verifyDir verifyPath ByName LoadComplete d run forceReplaceParam
          noRemoveParam name dirParam fileParam).calls.any Event.isMutation = false ∧
      (apiReposPackageFromDir verifyDir verifyPath ByName LoadComplete d run forceReplaceParam
          noRemoveParam name dirParam fileParam).submitted.map
            (fun s => (s.name, s.resources, s.work ())) =
        (if verifyDir dirParam = true ∧ (fileParam = [] ∨ verifyPath fileParam = true) then
          (ByName name).toOption.bind (fun r => (LoadComplete r).toOption)
        else none).map (fun r => (importTaskName name dirParam fileParam, [r.Key],
          fromDirWork d dirParam fileParam (decide (forceReplaceParam = ascii "1"))
            (decide (noRemoveParam = ascii "1")) r))) ∧
    (∀ (d : ImportDeps RL PL) (dirParam fileParam : GoString) (forceReplace noRemove : Bool)
        (repo : LocalRepo RL),
      (∀ list, d.NewPackageListFromRefList repo.RefList = .ok list →
        (imported d dirParam fileParam forceReplace list).err = none →
        mutations (fromDirWork d dirParam fileParam forceReplace noRemove repo).trace =
          [.Update (importedRepo d repo (imported d dirParam fileParam forceReplace list))]) ∧
      ((¬ ∃ list, d.NewPackageListFromRefList repo.RefList = .ok list ∧
          (imported d dirParam fileParam forceReplace list).err = none) →
        mutations (fromDirWork d dirParam fileParam forceReplace noRemove repo).trace = [])) ∧
    (∀ (NewLocalRepo : GoString → GoString → LocalRepo RL) (Add : LocalRepo RL → Option GoError)
        (body : Option CreateBody),
      (apiReposCreate NewLocalRepo Add body : HandlerRun RL T).submitted.isNone = true ∧
      (apiReposCreate NewLocalRepo Add body : HandlerRun RL T).calls =
        (match body with
          | some b => [.Add (createdRepo NewLocalRepo b)]
          | none => []) ∧
      (apiReposCreate NewLocalRepo Add body : HandlerRun RL T).response =
        (match body with
          | some b =>
            (match Add (createdRepo NewLocalRepo b) with
              | some err => .AbortWithError 400 err
              | none => .JSON 201 (.repo (createdRepo NewLocalRepo b)))
          | none => .written)) ∧
    (∀ (Update : LocalRepo RL → Option GoError) (body : Option EditBody),
      (apiReposEdit ByName Update body name : HandlerRun RL T).submitted.isNone = true ∧
      (apiReposEdit ByName Update body name : HandlerRun RL T).calls =
        (match body, ByName name with
          | some b, .ok repo => [.ByName name, .Update (editedRepo repo b)]
          | some _, .error _ => [.ByName name]
          | none, _ => []) ∧
      (apiReposEdit ByName Update body name : HandlerRun RL T).response =
        (match body, ByName name with
          | some b, .ok repo =>
            (match Update (editedRepo repo b) with
              | some err => .AbortWithError 500 err
              | none => .JSON 200 (.repo (editedRepo repo b)))
          | some _, .error err => .AbortWithError 404 err
          | none, _ => .written)) := by
  refine ⟨?_, ?_, ?_, ?_, ?_, ?_, ?_, ?_⟩
  · intro ByLocalRepo ByLocalRepoSource Drop forceParam
    unfold apiReposDrop
    cases hn : ByName name <;> simp [Except.toOption, Event.isMutation]
  · intro ByLocalRepo ByLocalRepoSource Drop force repo
    unfold dropWork mutations
    by_cases hp : ByLocalRepo repo > 0
    · have : ByLocalRepo repo ≠ 0 := by omega
      simp [hp, this, Event.isMutation]
    · have hp0 : ByLocalRepo repo = 0 := by omega
      by_cases hs : ByLocalRepoSource repo > 0
      · have : ByLocalRepoSource repo ≠ 0 := by omega
        cases force <;> simp [hp0, hs, this, Event.isMutation]
      · have hs0 : ByLocalRepoSource repo = 0 := by omega
        cases force <;> simp [hp0, hs0, Event.isMutation]
  · intro d body namePrefix
    unfold apiReposPackagesAddDelete
    cases body with
    | none => simp
    | some refs =>
      cases hn : ByName name with
      | error err => simp [Except.toOption, Event.isMutation]
      | ok repo =>
        cases hl : LoadComplete repo <;> simp [hl, Except.toOption, Event.isMutation]
  · intro d refs repo
    exact mutations_addDeleteWork d refs repo
  · intro verifyDir verifyPath d forceReplaceParam noRemoveParam dirParam fileParam
    unfold apiReposPackageFromDir importTaskName
    by_cases hd : verifyDir dirParam = true
    · by_cases hf : fileParam = []
      · cases hn : ByName name with
        | error err => simp [hd, hf, Except.toOption, Event.isMutation]
        | ok repo =>
          cases hl : LoadComplete repo <;> simp [hd, hf, hl, Except.toOption, Event.isMutation]
      · by_cases hp : verifyPath fileParam = true
        · cases hn : ByName name with
          | error err => simp [hd, hf, hp, Except.toOption, Event.isMutation]
          | ok repo =>
            cases hl : LoadComplete repo <;>
              simp [hd, hf, hp, hl, Except.toOption, Event.isMutation]
        · simp [hd, hf, hp]
    · simp [hd]
  · intro d dirParam fileParam forceReplace noRemove repo
    exact mutations_fromDirWork d dirParam fileParam forceReplace noRemove repo
  · intro NewLocalRepo Add body
    unfold apiReposCreate createdRepo
    cases body with
    | none => simp
    | some b =>
      simp only
      split <;> simp_all
  · intro Update body
    unfold apiReposEdit editedRepo
    cases body with
    | none => simp
    | some b =>
      cases hn : ByName name with
      | error err => simp
      | ok repo =>
        rcases b with ⟨c, dd, dc⟩
        cases c <;> cases dd <;> cases dc <;> simp only [Option.getD] <;> split <;> simp_all

/-- Witness of C4, amended: adding `Pa` to `foo` submits a task on the key
`Lfoo` whose work function makes the one `Update` call, and the handler body
makes none. -/
theorem mutations_by_handler_witness :
    (apiReposPackagesAddDelete sample.byName (fun r => .ok r) sample.packagesDeps
        sample.freeRunner (some [ascii "Pa"]) (ascii "foo")
        (ascii "Add packages to repo ")).calls.any Event.isMutation = false ∧
    (apiReposPackagesAddDelete sample.byName (fun r => .ok r) sample.packagesDeps
        sample.freeRunner (some [ascii "Pa"]) (ascii "foo")
        (ascii "Add packages to repo ")).submitted.map
          (fun s => (s.name, s.resources, s.work ())) =
      some (ascii "Add packages to repo foo", [ascii "Lfoo"],
        addDeleteWork sample.packagesDeps [ascii "Pa"] sample.repoFoo) ∧
    mutations (addDeleteWork sample.packagesDeps [ascii "Pa"] sample.repoFoo).trace =
      [.Update sample.repoFoo] :=
  ⟨((mutations_by_handler sample.byName (fun r => .ok r) sample.freeRunner
      (ascii "foo")).2.2.1 sample.packagesDeps (some [ascii "Pa"])
      (ascii "Add packages to repo ")).1,
    ((mutations_by_handler sample.byName (fun r => .ok r) sample.freeRunner
      (ascii "foo")).2.2.1 sample.packagesDeps (some [ascii "Pa"])
      (ascii "Add packages to repo ")).2,
    ((mutations_by_handler sample.byName (fun r => .ok r) sample.freeRunner
      (ascii "foo")).2.2.2.1 sample.packagesDeps [ascii "Pa"] sample.repoFoo).1 []
      [ascii "Pa"] rfl ⟨ascii "Pa", rfl, rfl, rfl⟩⟩

theorem respondToSubmit_eq {RL T : Type} (r : T × Option GoError) :
    (respondToSubmit r : Response RL T) =
      (match r.2 with
        | some conflictErr => .AbortWithError 409 conflictErr
        | none => .JSON 202 (.task r.1)) := by
  unfold respondToSubmit
  rfl

theorem apiReposDrop_found {RL T : Type} (ByName : GoString → Except GoError (LocalRepo RL))
    (ByLocalRepo ByLocalRepoSource : LocalRepo RL → Nat) (Drop : LocalRepo RL → Option GoError)
    (run : Runner RL T) (forceParam name : GoString) (repo : LocalRepo RL)
    (hn : ByName name = .ok repo) :
    apiReposDrop ByName ByLocalRepo ByLocalRepoSource Drop run forceParam name =
      ⟨[.ByName name],
        some ⟨ascii "Delete repo " ++ name, [repo.Key],
          fun _ => dropWork ByLocalRepo ByLocalRepoSource Drop (decide (forceParam = ascii "1"))
            repo⟩,
        respondToSubmit (run (ascii "Delete repo " ++ name) [repo.Key]
          (fun _ => dropWork ByLocalRepo ByLocalRepoSource Drop
            (decide (forceParam = ascii "1")) repo))⟩ := by
  simp only [apiReposDrop, hn]

theorem apiReposPackagesAddDelete_loaded {RL PL Pkg T : Type}
    (ByName : GoString → Except GoError (LocalRepo RL))
    (LoadComplete : LocalRepo RL → Except GoError (LocalRepo RL))
    (d : PackagesDeps RL PL Pkg) (run : Runner RL T) (refs : List GoString)
    (name namePrefix : GoString) (repo loaded : LocalRepo RL)
    (hn : ByName name = .ok repo) (hl : LoadComplete repo = .ok loaded) :
    apiReposPackagesAddDelete ByName LoadComplete d run (some refs) name namePrefix =
      ⟨[.ByName name, .LoadComplete repo],
        some ⟨namePrefix ++ loaded.Name, [loaded.Key], fun _ => addDeleteWork d refs loaded⟩,
        respondToSubmit (run (namePrefix ++ loaded.Name) [loaded.Key]
          (fun _ => addDeleteWork d refs loaded))⟩ := by
  simp only [apiReposPackagesAddDelete, hn, hl]

theorem apiReposPackageFromDir_loaded {RL PL T : Type}
    (verifyDir verifyPath : GoString → Bool)
    (ByName : GoString → Except GoError (LocalRepo RL))
    (LoadComplete : LocalRepo RL → Except GoError (LocalRepo RL))
    (d : ImportDeps RL PL) (run : Runner RL T)
    (forceReplaceParam noRemoveParam name dirParam fileParam : GoString)
    (repo loaded : LocalRepo RL) (hd : verifyDir dirParam = true)
    (hf : fileParam = [] ∨ verifyPath fileParam = true)
    (hn : ByName name = .ok repo) (hl : LoadComplete repo = .ok loaded) :
    apiReposPackageFromDir verifyDir verifyPath ByName LoadComplete d run forceReplaceParam
        noRemoveParam name dirParam fileParam =
      ⟨[.ByName name, .LoadComplete repo],
        some ⟨importTaskName name dirParam fileParam, [loaded.Key],
          fun _ => fromDirWork d dirParam fileParam (decide (forceReplaceParam = ascii "1"))
            (decide (noRemoveParam = ascii "1")) loaded⟩,
        respondToSubmit (run (importTaskName name dirParam fileParam) [loaded.Key]
          (fun _ => fromDirWork d dirParam fileParam (decide (forceReplaceParam = ascii "1"))
            (decide (noRemoveParam = ascii "1")) loaded))⟩ := by
  have hcheck : ¬ (fileParam ≠ [] ∧ (!verifyPath fileParam) = true) := by
    rintro ⟨h1, h2⟩
    rcases hf with hf | hf
    · exact h1 hf
    · simp [hf] at h2
  unfold apiReposPackageFromDir importTaskName
  simp only [hd, Bool.not_true, Bool.false_eq_true, if_false, hcheck, hn, hl]
  by_cases he : fileParam = [] <;> simp [he]

theorem response_ignores_work {RL PL Pkg T : Type}
    (ByName : GoString → Except GoError (LocalRepo RL))
    (LoadComplete : LocalRepo RL → Except GoError (LocalRepo RL)) (run : Runner RL T)
    (name : GoString)
    (hrun : ∀ taskName resources work work2,
      run taskName resources work = run taskName resources work2) :
    (∀ (ByLocalRepo ByLocalRepoSource ByLocalRepo2 ByLocalRepoSource2 : LocalRepo RL → Nat)
        (Drop Drop2 : LocalRepo RL → Option GoError) (forceParam : GoString),
      (apiReposDrop ByName ByLocalRepo ByLocalRepoSource Drop run forceParam name).response =
        (apiReposDrop ByName ByLocalRepo2 ByLocalRepoSource2 Drop2 run forceParam
          name).response) ∧
    (∀ (d d2 : PackagesDeps RL PL Pkg) (body : Option (List GoString))
        (namePrefix : GoString),
      (apiReposPackagesAddDelete ByName LoadComplete d run body name namePrefix).response =
        (apiReposPackagesAddDelete ByName LoadComplete d2 run body name
          namePrefix).response) ∧
    (∀ (verifyDir verifyPath : GoString → Bool) (d d2 : ImportDeps RL PL)
        (forceReplaceParam noRemoveParam dirParam fileParam : GoString),
      (apiReposPackageFromDir verifyDir verifyPath ByName LoadComplete d run
          forceReplaceParam noRemoveParam name dirParam fileParam).response =
        (apiReposPackageFromDir verifyDir verifyPath ByName LoadComplete d2 run
          forceReplaceParam noRemoveParam name dirParam fileParam).response) := by
  refine ⟨?_, ?_, ?_⟩
  · intro ByLocalRepo ByLocalRepoSource ByLocalRepo2 ByLocalRepoSource2 Drop Drop2 forceParam
    unfold apiReposDrop
    cases hn : ByName name with
    | error err => rfl
    | ok repo =>
      simp only
      rw [hrun _ _ _ (fun _ => dropWork ByLocalRepo2 ByLocalRepoSource2 Drop2
        (decide (forceParam = ascii "1")) repo)]
  · intro d d2 body namePrefix
    unfold apiReposPackagesAddDelete
    cases body with
    | none => rfl
    | some refs =>
      cases hn : ByName name with
      | error err => rfl
      | ok repo =>
        cases hl : LoadComplete repo with
        | error err => simp only [hl]
        | ok loaded =>
          simp only [hl]
          rw [hrun _ _ _ (fun _ => addDeleteWork d2 refs loaded)]
  · intro verifyDir verifyPath d d2 forceReplaceParam noRemoveParam dirParam fileParam
    unfold apiReposPackageFromDir
    simp only
    split
    · rfl
    · split
      · rfl
      · cases hn : ByName name with
        | error err => rfl
        | ok repo =>
          cases hl : LoadComplete repo with
          | error err => simp only [hl]
          | ok loaded =>
            simp only [hl]
            rw [hrun _ _ _ (fun _ => fromDirWork d2 dirParam fileParam
              (decide (forceReplaceParam = ascii "1")) (decide (noRemoveParam = ascii "1"))
              loaded)]

/-- C5: `apiReposDrop` submits its task whenever `ByName` finds the
repository, `apiReposPackagesAddDelete` whenever the body binds, `ByName`
finds the repository and `LoadComplete` succeeds, `apiReposPackageFromDir`
whenever the directory and file checks pass, `ByName` finds the repository and
`LoadComplete` succeeds. In each of them the answer is then fixed by what
`runTaskInBackground` returns for that submission: status 409 with the
conflict error when that error is non-nil, status 202 with the returned task
when it is nil; the same holds for whatever submission a run of the handler
records. The answer does not depend on what the work function does: with any
runner whose result does not depend on the work function, and so with the
`submit` of the specification, which returns before the work function has
run, the answer is the same whatever the collaborators of the work function
return. -/
theorem response_follows_submission {RL PL Pkg T : Type}
    (ByName : GoString → Except GoError (LocalRepo RL))
    (LoadComplete : LocalRepo RL → Except GoError (LocalRepo RL)) (run : Runner RL T)
    (name : GoString) :
    (∀ (ByLocalRepo ByLocalRepoSource : LocalRepo RL → Nat) (Drop : LocalRepo RL → Option GoError)
        (forceParam : GoString) (repo : LocalRepo RL),
      ByName name = .ok repo →
      (apiReposDrop ByName ByLocalRepo ByLocalRepoSource Drop run forceParam name).submitted.map
          (fun s => (s.name, s.resources)) = some (ascii "Delete repo " ++ name, [repo.Key]) ∧
      (apiReposDrop ByName ByLocalRepo ByLocalRepoSource Drop run forceParam name).response =
        (match (run (ascii "Delete repo " ++ name) [repo.Key]
            (fun _ => dropWork ByLocalRepo ByLocalRepoSource Drop
              (decide (forceParam = ascii "1")) repo)).2 with
          | some conflictErr => .AbortWithError 409 conflictErr
          | none => .JSON 202 (.task (run (ascii "Delete repo " ++ name) [repo.Key]
              (fun _ => dropWork ByLocalRepo ByLocalRepoSource Drop
                (decide (forceParam = ascii "1")) repo)).1))) ∧
    (∀ (d : PackagesDeps RL PL Pkg) (refs : List GoString) (namePrefix : GoString)
        (repo loaded : LocalRepo RL),
      ByName name = .ok repo → LoadComplete repo = .ok loaded →
      (apiReposPackagesAddDelete ByName LoadComplete d run (some refs) name
          namePrefix).submitted.map (fun s => (s.name, s.resources)) =
        some (namePrefix ++ loaded.Name, [loaded.Key]) ∧
      (apiReposPackagesAddDelete ByName LoadComplete d run (some refs) name
          namePrefix).response =
        (match (run (namePrefix ++ loaded.Name) [loaded.Key]
            (fun _ => addDeleteWork d refs loaded)).2 with
          | some conflictErr => .AbortWithError 409 conflictErr
          | none => .JSON 202 (.task (run (namePrefix ++ loaded.Name) [loaded.Key]
              (fun _ => addDeleteWork d refs loaded)).1))) ∧
    (∀ (verifyDir verifyPath : GoString → Bool) (d : ImportDeps RL PL)
        (forceReplaceParam noRemoveParam dirParam fileParam : GoString)
        (repo loaded : LocalRepo RL),
      verifyDir dirParam = true → (fileParam = [] ∨ verifyPath fileParam = true) →
      ByName name = .ok repo → LoadComplete repo = .ok loaded →
      (apiReposPackageFromDir verifyDir verifyPath ByName LoadComplete d run forceReplaceParam
          noRemoveParam name dirParam fileParam).submitted.map (fun s => (s.name, s.resources)) =
        some (importTaskName name dirParam fileParam, [loaded.Key]) ∧
      (apiReposPackageFromDir verifyDir verifyPath ByName LoadComplete d run forceReplaceParam
          noRemoveParam name dirParam fileParam).response =
        (match (run (importTaskName name dirParam fileParam) [loaded.Key]
            (fun _ => fromDirWork d dirParam fileParam (decide (forceReplaceParam = ascii "1"))
              (decide (noRemoveParam = ascii "1")) loaded)).2 with
          | some conflictErr => .AbortWithError 409 conflictErr
          | none => .JSON 202 (.task (run (importTaskName name dirParam fileParam) [loaded.Key]
              (fun _ => fromDirWork d dirParam fileParam
                (decide (forceReplaceParam = ascii "1"))
                (decide (noRemoveParam = ascii "1")) loaded)).1))) ∧
    (∀ (ByLocalRepo ByLocalRepoSource : LocalRepo RL → Nat) (Drop : LocalRepo RL → Option GoError)
        (forceParam : GoString) (s : Submission RL),
      (apiReposDrop ByName ByLocalRepo ByLocalRepoSource Drop run forceParam name).submitted
          = some s →
      (apiReposDrop ByName ByLocalRepo ByLocalRepoSource Drop run forceParam name).response =
        (match (run s.name s.resources s.work).2 with
          | some conflictErr => .AbortWithError 409 conflictErr
          | none => .JSON 202 (.task (run s.name s.resources s.work).1))) ∧
    (∀ (d : PackagesDeps RL PL Pkg) (body : Option (List GoString)) (namePrefix : GoString)
        (s : Submission RL),
      (apiReposPackagesAddDelete ByName LoadComplete d run body name namePrefix).submitted
          = some s →
      (apiReposPackagesAddDelete ByName LoadComplete d run body name namePrefix).response =
        (match (run s.name s.resources s.work).2 with
          | some conflictErr => .AbortWithError 409 conflictErr
          | none => .JSON 202 (.task (run s.name s.resources s.work).1))) ∧
    (∀ (verifyDir verifyPath : GoString → Bool) (d : ImportDeps RL PL)
        (forceReplaceParam noRemoveParam dirParam fileParam : GoString) (s : Submission RL),
      (apiReposPackageFromDir verifyDir verifyPath ByName LoadComplete d run forceReplaceParam
          noRemoveParam name dirParam fileParam).submitted = some s →
      (apiReposPackageFromDir verifyDir verifyPath ByName LoadComplete d run forceReplaceParam
          noRemoveParam name dirParam fileParam).response =
        (match (run s.name s.resources s.work).2 with
          | some conflictErr => .AbortWithError 409 conflictErr
          | none => .JSON 202 (.task (run s.name s.resources s.work).1))) ∧
    ((∀ taskName resources work work2, run taskName resources work = run taskName resources work2) →
      (∀ (ByLocalRepo ByLocalRepoSource ByLocalRepo2 ByLocalRepoSource2 : LocalRepo RL → Nat)
          (Drop Drop2 : LocalRepo RL → Option GoError) (forceParam : GoString),
        (apiReposDrop ByName ByLocalRepo ByLocalRepoSource Drop run forceParam name).response =
          (apiReposDrop ByName ByLocalRepo2 ByLocalRepoSource2 Drop2 run forceParam
            name).response) ∧
      (∀ (d d2 : PackagesDeps RL PL Pkg) (body : Option (List GoString))
          (namePrefix : GoString),
        (apiReposPackagesAddDelete ByName LoadComplete d run body name namePrefix).response =
          (apiReposPackagesAddDelete ByName LoadComplete d2 run body name
            namePrefix).response) ∧
      (∀ (verifyDir verifyPath : GoString → Bool) (d d2 : ImportDeps RL PL)
          (forceReplaceParam noRemoveParam dirParam fileParam : GoString),
        (apiReposPackageFromDir verifyDir verifyPath ByName LoadComplete d run
            forceReplaceParam noRemoveParam name dirParam fileParam).response =
          (apiReposPackageFromDir verifyDir verifyPath ByName LoadComplete d2 run
            forceReplaceParam noRemoveParam name dirParam fileParam).response)) ∧
    (∀ (locks : task.LockTable) (nextID : Int) (conflictErr : GoError),
      (∀ (ByLocalRepo ByLocalRepoSource ByLocalRepo2 ByLocalRepoSource2 : LocalRepo RL → Nat)
          (Drop Drop2 : LocalRepo RL → Option GoError) (forceParam : GoString),
        (apiReposDrop ByName ByLocalRepo ByLocalRepoSource Drop
            (task.submit locks nextID conflictErr) forceParam name).response =
          (apiReposDrop ByName ByLocalRepo2 ByLocalRepoSource2 Drop2
            (task.submit locks nextID conflictErr) forceParam name).response) ∧
      (∀ (d d2 : PackagesDeps RL PL Pkg) (body : Option (List GoString))
          (namePrefix : GoString),
        (apiReposPackagesAddDelete ByName LoadComplete d (task.submit locks nextID conflictErr)
            body name namePrefix).response =
          (apiReposPackagesAddDelete ByName LoadComplete d2
            (task.submit locks nextID conflictErr) body name namePrefix).response) ∧
      (∀ (verifyDir verifyPath : GoString → Bool) (d d2 : ImportDeps RL PL)
          (forceReplaceParam noRemoveParam dirParam fileParam : GoString),
        (apiReposPackageFromDir verifyDir verifyPath ByName LoadComplete d
            (task.submit locks nextID conflictErr) forceReplaceParam noRemoveParam name dirParam
            fileParam).response =
          (apiReposPackageFromDir verifyDir verifyPath ByName LoadComplete d2
            (task.submit locks nextID conflictErr) forceReplaceParam noRemoveParam name dirParam
            fileParam).response)) := by
  refine ⟨?_, ?_, ?_, ?_, ?_, ?_, ?_, ?_⟩
  · intro ByLocalRepo ByLocalRepoSource Drop forceParam repo hn
    rw [apiReposDrop_found ByName ByLocalRepo ByLocalRepoSource Drop run forceParam name repo hn]
    exact ⟨rfl, respondToSubmit_eq _⟩
  · intro d refs namePrefix repo loaded hn hl
    rw [apiReposPackagesAddDelete_loaded ByName LoadComplete d run refs name namePrefix repo
      loaded hn hl]
    exact ⟨rfl, respondToSubmit_eq _⟩
  · intro verifyDir verifyPath d forceReplaceParam noRemoveParam dirParam fileParam repo loaded
      hd hf hn hl
    rw [apiReposPackageFromDir_loaded verifyDir verifyPath ByName LoadComplete d run
      forceReplaceParam noRemoveParam name dirParam fileParam repo loaded hd hf hn hl]
    exact ⟨rfl, respondToSubmit_eq _⟩
  · intro ByLocalRepo ByLocalRepoSource Drop forceParam s
    unfold apiReposDrop
    cases hn : ByName name with
    | error err => simp
    | ok repo =>
      simp only [Option.some.injEq]
      intro hs
      subst hs
      simp only [respondToSubmit]
  · intro d body namePrefix s
    unfold apiReposPackagesAddDelete
    cases body with
    | none => simp
    | some refs =>
      cases hn : ByName name with
      | error err => simp
      | ok repo =>
        cases hl : LoadComplete repo with
        | error err => simp [hl]
        | ok loaded =>
          simp only [hl, Option.some.injEq]
          intro hs
          subst hs
          simp only [respondToSubmit]
  · intro verifyDir verifyPath d forceReplaceParam noRemoveParam dirParam fileParam s
    unfold apiReposPackageFromDir
    simp only
    split
    · simp
    · split
      · simp
      · cases hn : ByName name with
        | error err => simp
        | ok repo =>
          cases hl : LoadComplete repo with
          | error err => simp [hl]
          | ok loaded =>
            simp only [hl, Option.some.injEq]
            intro hs
            subst hs
            simp only [respondToSubmit]
  · intro hrun
    exact response_ignores_work ByName LoadComplete run name hrun
  · intro locks nextID conflictErr
    exact response_ignores_work ByName LoadComplete (task.submit locks nextID conflictErr) name
      (fun _ _ _ _ => rfl)

/-- Witness of C5: with the key of `foo` held, deleting `foo` and adding `Pa`
to `foo` both answer 409 with the conflict error; with no key held, importing
the directory `d` into `foo` answers 202 with the task; and the answer to the
delete is the same when its work function would fail instead of succeed. -/
theorem response_follows_submission_witness :
    (apiReposDrop sample.byName (fun _ => 0) (fun _ => 0) (fun _ => none) sample.busyRunner []
        (ascii "foo")).response =
      .AbortWithError 409 ⟨ascii "resource conflict", false⟩ ∧
    (apiReposPackagesAddDelete sample.byName (fun r => .ok r) sample.packagesDeps
        sample.busyRunner (some [ascii "Pa"]) (ascii "foo")
        (ascii "Add packages to repo ")).response =
      .AbortWithError 409 ⟨ascii "resource conflict", false⟩ ∧
    (apiReposPackageFromDir (fun _ => true) (fun _ => true) sample.byName (fun r => .ok r)
        sample.importDeps sample.freeRunner [] [] (ascii "foo") (ascii "d") []).response =
      .JSON 202 (.task 7) ∧
    (apiReposDrop sample.byName (fun _ => 0) (fun _ => 0) (fun _ => none) sample.busyRunner []
        (ascii "foo")).response =
      (apiReposDrop sample.byName (fun _ => 0) (fun _ => 0)
        (fun _ => some (Errorf (ascii "disk full"))) sample.busyRunner []
        (ascii "foo")).response :=
  ⟨((@response_follows_submission Unit (List GoString) GoString Nat sample.byName
      (fun r => .ok r) sample.busyRunner (ascii "foo")).1 (fun _ => 0) (fun _ => 0)
      (fun _ => none) [] sample.repoFoo rfl).2,
    ((@response_follows_submission Unit (List GoString) GoString Nat sample.byName
      (fun r => .ok r) sample.busyRunner (ascii "foo")).2.1 sample.packagesDeps [ascii "Pa"]
      (ascii "Add packages to repo ") sample.repoFoo sample.repoFoo rfl rfl).2,
    ((@response_follows_submission Unit (List GoString) GoString Nat sample.byName
      (fun r => .ok r) sample.freeRunner (ascii "foo")).2.2.1 (fun _ => true) (fun _ => true)
      sample.importDeps [] [] (ascii "d") [] sample.repoFoo sample.repoFoo rfl (Or.inl rfl)
      rfl rfl).2,
    ((@response_follows_submission Unit (List GoString) GoString Nat sample.byName
      (fun r => .ok r) sample.busyRunner (ascii "foo")).2.2.2.2.2.2.1 (fun _ _ _ _ => rfl)).1
      (fun _ => 0) (fun _ => 0) (fun _ => 0) (fun _ => 0) (fun _ => none)
      (fun _ => some (Errorf (ascii "disk full"))) []⟩

end Aptly
